import Mathlib

/-!
# ConstrainedPlanning demo (`src/demos/ConstrainedPlanning.cpp`)

A shallow embedding of `usage` and `main` of the constrained planning demo.
Everything the demo calls in the planning library (state spaces, planners,
problem registry) and in libc (`getopt`, `atof`, `atoi`) is external to the
file; it is represented by the parameters `Env` and `ConstrainedStateSpace`,
and the run of `main` is the sequence of external calls and outputs it makes.
-/

namespace ConstrainedPlanning

/-! ## Data model -/

/-- The enumeration `SPACE` of the demo. -/
inductive SPACE
  | ATLAS
  | PROJECTED
  | NULLSPACE
  deriving DecidableEq, Repr

/-- A `double` value as the source writes it: a decimal literal
`mantissa / 10 ^ decimals`, the quotient `M_PI / k`, the result of
`atof(optarg)`, or the result of `atlas->getRho_s()`. -/
inductive Dbl
  | dec (mantissa decimals : Nat)
  | piOver (k : Nat)
  | atof (optarg : String)
  | getRho_s
  deriving DecidableEq, Repr

/-- An `unsigned int` value as the source writes it: a literal or the result of
`atoi(optarg)`. -/
inductive UIntVal
  | lit (n : Nat)
  | atoi (optarg : String)
  deriving DecidableEq, Repr

/-- The local variables of `main` that the option loop assigns. -/
structure Options where
  plannerName : String
  problem : String
  space : String
  artificalSleep : Dbl
  planningTime : Dbl
  output : Bool
  links : UIntVal
  deriving DecidableEq, Repr

/-- The initial values of the option variables (source lines 60-68). -/
def defaultOptions : Options where
  plannerName := "RRTConnect"
  problem := "sphere"
  space := "projected"
  artificalSleep := Dbl.dec 0 1
  planningTime := Dbl.dec 50 1
  output := false
  links := UIntVal.lit 5

/-! ## Option parsing -/

/-- The option string handed to `getopt` (source line 70). -/
def optstring : List Char := "c:p:s:w:ot:n:".toList

/-- Look an option letter up in an option string: `none` when the letter is not
there, otherwise whether it is followed by a colon (takes an argument). -/
def lookupOpt : List Char → Char → Option Bool
  | [], _ => none
  | c :: rest, l => if c = l then some (rest.head? = some ':') else lookupOpt rest l

/-- One call of the C library function `getopt` on one option occurrence of the
command line: the option letter and, when one is available, the argument text
that follows it. The result is the returned character and `optarg` (the empty
string when the option takes none). An unknown letter returns `?`; a missing
argument returns `?` too unless the option string starts with a colon
(POSIX `getopt`, with `opterr = 0` nothing is printed). -/
def getopt (opts : List Char) (letter : Char) (arg : Option String) : Char × String :=
  if letter = ':' then ('?', "")
  else
    match lookupOpt opts letter with
    | none => ('?', "")
    | some false => (letter, "")
    | some true =>
      match arg with
      | some a => (letter, a)
      | none => (if opts.head? = some ':' then ':' else '?', "")

/-- The body of the `switch (c)` of the option loop (source lines 72-105):
`none` stands for the `default` branch, which calls `usage(argv[0])`. -/
def optionSwitch (c : Char) (optarg : String) (o : Options) : Option Options :=
  if c = 'c' then some { o with problem := optarg }
  else if c = 'p' then some { o with plannerName := optarg }
  else if c = 's' then some { o with space := optarg }
  else if c = 'w' then some { o with artificalSleep := Dbl.atof optarg }
  else if c = 't' then some { o with planningTime := Dbl.atof optarg }
  else if c = 'n' then some { o with links := UIntVal.atoi optarg }
  else if c = 'o' then some { o with output := true }
  else none

/-- The option loop `while ((c = getopt(...)) != -1)` over the option
occurrences of the command line; `none` when `usage` was called. -/
def parseOptions : List (Char × Option String) → Options → Option Options
  | [], o => some o
  | (letter, arg) :: rest, o =>
    match optionSwitch (getopt optstring letter arg).1 (getopt optstring letter arg).2 o with
    | none => none
    | some o' => parseOptions rest o'

/-- The part of the usage line that follows the program name (source line 42). -/
def usageText : String := " -c <problem> -p <planner> -s <space> -t <timelimit> -w <sleep> -o\n"

/-- The option letters a usage text lists: every character that follows a
space and a dash. -/
def listedOptions : List Char → List Char
  | ' ' :: '-' :: c :: rest => c :: listedOptions rest
  | _ :: rest => listedOptions rest
  | [] => []

/-- The selection of the state space from its name (source lines 108-120):
`none` stands for the final `else`, which reports an invalid space and calls
`usage`. -/
def selectSpace (space : String) : Option SPACE :=
  if "atlas" = space then some SPACE.ATLAS
  else if "projected" = space then some SPACE.PROJECTED
  else if "null" = space then some SPACE.NULLSPACE
  else none

/-! ## The path extraction loop -/

/-- The three members of the constrained state space `css` that the path
extraction loop of `main` calls. They belong to the planning library, not to the
demo, and are parameters here. `σ` is the internal state of the space (for the
atlas, its charts), which a traversal may change; `S` is the type of states and
`D` the type of the distances (`double` in the source).
`traverseManifold s a b` is the call
`css->traverseManifold(a, b, true, &stateList)` in space state `s`: it gives the
new space state and the filled `stateList`. -/
structure ConstrainedStateSpace (σ S D : Type) where
  traverseManifold : σ → S → S → σ × List S
  equalStates : σ → S → S → Bool
  distance : σ → S → S → D

/-- The ways the path extraction loop can leave defined behaviour: an index
into `waypoints` outside the vector, `front()` or `back()` of an empty
`stateList`, an index into `stateList` outside the vector. -/
inductive Fault
  | waypointIndex (i : Nat)
  | emptyStateList
  | stateListIndex (i : Nat)
  deriving DecidableEq, Repr

/-- The variables of the path extraction loop: the state of `css`, the states
written to `anim.txt` so far, the accumulated `length`, and, as a record of what
the loop did, the indexes of `waypoints` read so far, the number of completed
iterations and the fault that stopped the loop, if any. -/
structure LoopState (σ S D : Type) where
  css : σ
  animFile : List S
  length : D
  reads : List Nat
  iterations : Nat
  fault : Option Fault

/-- Width of `std::size_t`. -/
def SIZE_WIDTH : Nat := 64

/-- The loop bound `waypoints.size() - 1`, computed in `std::size_t`. -/
def loopBound (size : Nat) : Nat := (size + (2 ^ SIZE_WIDTH - 1)) % 2 ^ SIZE_WIDTH

section Loop

variable {σ S D : Type} [Add D]

/-- The inner loop `for (std::size_t i = 1; i < stateList.size(); i++)`
(source lines 299-309), started at index `i` with `fuel = stateList.size() - i`
iterations left: each iteration writes `stateList[i]` to `anim.txt` and adds
`css->distance(stateList[i - 1], stateList[i])` to `length`. -/
def printIntermediate (sp : ConstrainedStateSpace σ S D) (stateList : List S) :
    Nat → Nat → LoopState σ S D → LoopState σ S D
  | 0, _, st => st
  | fuel + 1, i, st =>
    match stateList[i]? with
    | none => { st with fault := some (Fault.stateListIndex i) }
    | some cur =>
      match stateList[i - 1]? with
      | none => { st with animFile := st.animFile ++ [cur], fault := some (Fault.stateListIndex (i - 1)) }
      | some prev =>
        printIntermediate sp stateList fuel (i + 1)
          { st with animFile := st.animFile ++ [cur],
                    length := st.length + sp.distance st.css prev cur }

/-- The body of the waypoint loop after `from` and `to` were read
(source lines 283-314): traverse the manifold, then either write the first
state of `stateList` (when `equalStates` holds of its front and back) or run the
inner loop. Freeing the intermediate states has no effect on what is written or
reported and is not represented. -/
def traverseAndPrint (sp : ConstrainedStateSpace σ S D) (st : LoopState σ S D)
    (fromState toState : S) : LoopState σ S D :=
  let r := sp.traverseManifold st.css fromState toState
  let stateList := r.2
  let st1 : LoopState σ S D := { st with css := r.1 }
  match stateList.head?, stateList.getLast? with
  | some front, some back =>
    if sp.equalStates st1.css front back then
      { st1 with animFile := st1.animFile ++ [front] }
    else
      printIntermediate sp stateList (stateList.length - 1) 1 st1
  | _, _ => { st1 with fault := some Fault.emptyStateList }

/-- The waypoint loop `for (std::size_t i = 0; i < waypoints.size() - 1; i++)`
(source lines 275-315), at index `i` with `fuel = bound - i` iterations left.
Reading `waypoints[i]` or `waypoints[i + 1]` outside the vector is a fault. -/
def waypointLoop (sp : ConstrainedStateSpace σ S D) (waypoints : List S) :
    Nat → Nat → LoopState σ S D → LoopState σ S D
  | 0, _, st => st
  | fuel + 1, i, st =>
    match waypoints[i]? with
    | none => { st with reads := st.reads ++ [i], fault := some (Fault.waypointIndex i) }
    | some fromState =>
      match waypoints[i + 1]? with
      | none =>
        { st with reads := st.reads ++ [i, i + 1], fault := some (Fault.waypointIndex (i + 1)) }
      | some toState =>
        let st1 := traverseAndPrint sp { st with reads := st.reads ++ [i, i + 1] } fromState toState
        match st1.fault with
        | some _ => st1
        | none => waypointLoop sp waypoints fuel (i + 1) { st1 with iterations := st1.iterations + 1 }

/-- The path extraction of `main` (source lines 271-316): `length = 0`, an empty
`anim.txt`, and the waypoint loop from index 0 up to `waypoints.size() - 1`. -/
def extractPath [Zero D] (sp : ConstrainedStateSpace σ S D) (s0 : σ) (waypoints : List S) :
    LoopState σ S D :=
  waypointLoop sp waypoints (loopBound waypoints.length) 0
    { css := s0, animFile := [], length := 0, reads := [], iterations := 0, fault := none }

end Loop

/-! ## The run of `main` -/

/-- The value `stat` of `planner->solve(planningTime)` as far as `main` looks at
it: its conversion to `bool` in `if (stat)`, and the result of the comparison
`stat == ompl::base::PlannerStatus::APPROXIMATE_SOLUTION`. -/
structure PlannerStatus where
  toBool : Bool
  isApproximate : Bool
  deriving DecidableEq, Repr

/-- The two valid state sampler allocators of the demo. -/
inductive Sampler
  | avssa
  | pvssa
  deriving DecidableEq, Repr

/-- The two scoped states `main` fills in. -/
inductive Endpoint
  | start
  | goal
  deriving DecidableEq, Repr

/-- What `main` does that is visible outside it, one constructor per call or
output of the source: `V` is the type of the points `x`, `y`
(`Eigen::VectorXd`), `Ch` of the charts, `S` of the states, `D` of distances. -/
inductive Event (V Ch S D : Type)
  /-- Text written to `std::cout`. -/
  | cout (text : String)
  /-- Call `printProblems()`. -/
  | printProblems
  /-- Call `printPlanners()`. -/
  | printPlanners
  /-- Call `exit(status)`. -/
  | exit (status : Int)
  /-- Call `parseProblem(problem, x, y, isValid, artificalSleep, links)`. -/
  | parseProblem (problem : String) (artificalSleep : Dbl) (links : UIntVal)
  /-- The `printf` of source lines 132-135. -/
  | printfHeader (space plannerName problem : String) (planningTime artificalSleep : Dbl)
  /-- Construction of the state space of the selected kind. -/
  | newStateSpace (t : SPACE)
  | setExploration (v : Dbl)
  | setRho (v : Dbl)
  | setAlpha (v : Dbl)
  | setEpsilon (v : Dbl)
  | setDelta (v : Dbl)
  | setMaxChartsPerExtension (n : Nat)
  | getRho_s
  | newSimpleSetup
  | setValidStateSamplerAllocator (a : Sampler)
  | setSpaceInformation
  /-- Call `atlas->anchorChart(p)`. -/
  | anchorChart (p : V)
  /-- Call `setRealState(p, chart)` on the start or goal state (`setRealState(p)` when there is no chart). -/
  | setRealState (e : Endpoint) (p : V) (chart : Option Ch)
  | setStartAndGoalStates
  | setStateValidityChecker
  /-- Calls `bounds.setLow(low)`, `bounds.setHigh(high)`, `setBounds(bounds)`. -/
  | setBounds (low high : Int)
  | parsePlanner (plannerName : String) (range : Dbl)
  | setPlanner
  | setup
  | solve (planningTime : Dbl)
  | simplifySolution
  /-- Call `css->dumpPath` into `path.ply`. -/
  | dumpPath
  /-- The states written to `anim.txt`, in order, between opening and closing it. -/
  | animFile (states : List S)
  /-- Output `std::cout << "Length: " << length`. -/
  | coutLength (length : D)
  /-- Output `std::cout << "Took " << time << " seconds."`. -/
  | coutTook
  | getPlannerData
  /-- Output `std::cout << "Approx goal distance: " << ...`. -/
  | coutApproxGoalDistance
  /-- Output `std::cout << "Atlas created " << getChartCount() << " charts."`. -/
  | coutChartCount
  /-- Output `std::cout << estimateFrontierPercent() << "% open."`. -/
  | coutFrontierPercent
  /-- Call `css->dumpGraph` into `graph.ply`. -/
  | dumpGraph
  /-- Call `dumpMesh` into `atlas.ply`. -/
  | dumpMesh
  deriving DecidableEq, Repr

/-- How a run of `main` ends: by `return 0`, by `exit(0)` inside `usage`, or in
undefined behaviour in the path extraction loop. -/
inductive Termination
  | returned
  | exited
  | undefined (f : Fault)
  deriving DecidableEq, Repr

/-- A run of `main`: its events in order and how it ended. -/
structure Outcome (V Ch S D : Type) where
  events : List (Event V Ch S D)
  termination : Termination

/-- The results of the external calls of one run of `main`. -/
structure Env (V Ch σ S D : Type) where
  /-- Result of `parseProblem`: `none` for a null constraint, otherwise the start point `x`
  and the goal point `y` it stores. -/
  parseProblem : String → Dbl → UIntVal → Option (V × V)
  /-- Value of `x.size()`. -/
  vectorSize : V → Nat
  /-- Result of `atlas->anchorChart(p)`, given the points anchored before it in this run. -/
  anchorChart : List V → V → Ch
  /-- Whether `parsePlanner(plannerName, si, range)` is a non-null planner. -/
  parsePlanner : String → Dbl → Bool
  /-- Result of `planner->solve(planningTime)`. -/
  solve : Dbl → PlannerStatus
  /-- Value of `path.getStates()` of the simplified solution path. -/
  waypoints : List S
  /-- The state of `css` when the path extraction starts. -/
  cssState : σ
  /-- The members of `css` the path extraction calls. -/
  css : ConstrainedStateSpace σ S D
  /-- Whether the planner data has the property `approx goal distance REAL`. -/
  hasApproxGoalDistance : Bool

section Main

variable {V Ch σ S D : Type}

/-- The function `usage` (source lines 39-46): it prints the usage line, the
problems and the planners and exits; it does not return. -/
def usage (progname : String) : List (Event V Ch S D) :=
  [Event.cout ("Usage: " ++ progname ++ usageText), Event.printProblems, Event.printPlanners,
   Event.exit 0]

/-- The `switch (spaceType)` of `main` (source lines 143-229): construction and
configuration of the state space and of the start and goal states. -/
def configureSpace (env : Env V Ch σ S D) (t : SPACE) (x y : V) : List (Event V Ch S D) :=
  match t with
  | SPACE.ATLAS =>
    [Event.newStateSpace SPACE.ATLAS,
     Event.setExploration (Dbl.dec 5 1),
     Event.setRho (Dbl.dec 5 1),
     Event.setAlpha (Dbl.piOver 8),
     Event.setEpsilon (Dbl.dec 2 1),
     Event.setDelta (Dbl.dec 2 2),
     Event.setMaxChartsPerExtension 200,
     Event.getRho_s,
     Event.newSimpleSetup,
     Event.setValidStateSamplerAllocator Sampler.avssa,
     Event.setSpaceInformation,
     Event.anchorChart x,
     Event.anchorChart y,
     Event.setRealState Endpoint.start x (some (env.anchorChart [] x)),
     Event.setRealState Endpoint.goal y (some (env.anchorChart [x] y)),
     Event.setStartAndGoalStates]
  | SPACE.PROJECTED =>
    [Event.newStateSpace SPACE.PROJECTED,
     Event.setDelta (Dbl.dec 2 2),
     Event.newSimpleSetup,
     Event.setValidStateSamplerAllocator Sampler.pvssa,
     Event.setSpaceInformation,
     Event.setRealState Endpoint.start x none,
     Event.setRealState Endpoint.goal y none,
     Event.setStartAndGoalStates]
  | SPACE.NULLSPACE =>
    [Event.newStateSpace SPACE.NULLSPACE,
     Event.setDelta (Dbl.dec 2 2),
     Event.newSimpleSetup,
     Event.setValidStateSamplerAllocator Sampler.pvssa,
     Event.setSpaceInformation,
     Event.setRealState Endpoint.start x none,
     Event.setRealState Endpoint.goal y none,
     Event.setStartAndGoalStates]

/-- The variable `range` after the switch: `0.707`, or `atlas->getRho_s()` for
the atlas. -/
def rangeOf (t : SPACE) : Dbl :=
  match t with
  | SPACE.ATLAS => Dbl.getRho_s
  | _ => Dbl.dec 707 3

/-- The end of `main` (source lines 328-355): planner data, the atlas
statistics, the optional dumps, `return 0`. -/
def reportAndDump (env : Env V Ch σ S D) (o : Options) (t : SPACE) (x : V) :
    List (Event V Ch S D) :=
  [Event.getPlannerData]
  ++ (if env.hasApproxGoalDistance then [Event.coutApproxGoalDistance] else [])
  ++ (if t = SPACE.ATLAS then [Event.coutChartCount, Event.coutFrontierPercent] else [])
  ++ (if env.vectorSize x = 3 ∧ o.output = true then
        [Event.getPlannerData, Event.dumpGraph]
        ++ (if t = SPACE.ATLAS then [Event.dumpMesh] else [])
      else [])

/-- The branch `if (stat)` of `main` (source lines 255-326) and what follows it
up to `return 0`. -/
def solved [Zero D] [Add D] (env : Env V Ch σ S D) (o : Options) (t : SPACE) (x : V)
    (stat : PlannerStatus) : Outcome V Ch S D :=
  if stat.toBool then
    let ev1 : List (Event V Ch S D) :=
      [Event.simplifySolution]
      ++ (if env.vectorSize x = 3 ∧ o.output = true then [Event.dumpPath] else [])
    let st := extractPath env.css env.cssState env.waypoints
    match st.fault with
    | some f => { events := ev1 ++ [Event.animFile st.animFile], termination := Termination.undefined f }
    | none =>
      { events := ev1 ++ [Event.animFile st.animFile]
          ++ (if stat.isApproximate = true then
                [Event.cout "Solution is approximate.\n"] else [])
          ++ [Event.coutLength st.length, Event.coutTook]
          ++ reportAndDump env o t x,
        termination := Termination.returned }
  else
    { events := [Event.cout "No solution found.\n"] ++ reportAndDump env o t x,
      termination := Termination.returned }

/-- The function `main` of the demo, on the program name `argv[0]`, the option
occurrences of the command line and the results of the external calls. -/
def main [Zero D] [Add D] (progname : String) (cmd : List (Char × Option String))
    (env : Env V Ch σ S D) : Outcome V Ch S D :=
  match parseOptions cmd defaultOptions with
  | none => { events := usage progname, termination := Termination.exited }
  | some o =>
    match selectSpace o.space with
    | none =>
      { events := [Event.cout "Invalid constrained state space.\n"] ++ usage progname,
        termination := Termination.exited }
    | some t =>
      match env.parseProblem o.problem o.artificalSleep o.links with
      | none =>
        { events := [Event.parseProblem o.problem o.artificalSleep o.links,
                     Event.cout "Invalid problem.\n"] ++ usage progname,
          termination := Termination.exited }
      | some (x, y) =>
        let ev1 : List (Event V Ch S D) :=
          [Event.parseProblem o.problem o.artificalSleep o.links,
           Event.printfHeader o.space o.plannerName o.problem o.planningTime o.artificalSleep]
          ++ configureSpace env t x y
          ++ [Event.setStateValidityChecker, Event.setBounds (-20) 20,
              Event.parsePlanner o.plannerName (rangeOf t)]
        if env.parsePlanner o.plannerName (rangeOf t) = true then
          let r := solved env o t x (env.solve o.planningTime)
          { events := ev1 ++ [Event.setPlanner, Event.setup, Event.solve o.planningTime] ++ r.events,
            termination := r.termination }
        else
          { events := ev1 ++ [Event.cout "Invalid planner.\n"] ++ usage progname,
            termination := Termination.exited }

end Main

/-! ## Observations on a run and on the traversal results -/

section Observations

variable {V Ch σ S D : Type}

/-- The length an event reports on `std::cout`, if it is the `Length:` line. -/
def Event.reportedLength : Event V Ch S D → Option D
  | Event.coutLength l => some l
  | _ => none

/-- The content of `anim.txt` an event writes, if it writes that file. -/
def Event.animStates : Event V Ch S D → Option (List S)
  | Event.animFile l => some l
  | _ => none

/-- The point an event anchors a chart at, if it is a call of `anchorChart`. -/
def Event.anchored : Event V Ch S D → Option V
  | Event.anchorChart p => some p
  | _ => none

/-- The endpoint, point and chart of a call of `setRealState`. -/
def Event.realState : Event V Ch S D → Option (Endpoint × V × Option Ch)
  | Event.setRealState e p c => some (e, p, c)
  | _ => none

/-- The kind of state space an event constructs, if it constructs one. -/
def Event.constructed : Event V Ch S D → Option SPACE
  | Event.newStateSpace t => some t
  | _ => none

/-- Whether an event sets one of the parameters of the state space
(exploration bias, rho, alpha, epsilon, delta, maximum charts per extension). -/
def Event.isSetting : Event V Ch S D → Bool
  | Event.setExploration _ => true
  | Event.setRho _ => true
  | Event.setAlpha _ => true
  | Event.setEpsilon _ => true
  | Event.setDelta _ => true
  | Event.setMaxChartsPerExtension _ => true
  | _ => false

/-- The lengths a run reports, in order. -/
def Outcome.reportedLengths (r : Outcome V Ch S D) : List D :=
  r.events.filterMap Event.reportedLength

/-- The contents of `anim.txt` a run writes, in order. -/
def Outcome.animFiles (r : Outcome V Ch S D) : List (List S) :=
  r.events.filterMap Event.animStates

/-- The run of `main` on `cmd` and `env` passes every call of `usage` with the
options `o`, the space `t` and the problem points `x`, `y`, and the planner
reports a solution: `main` reaches the path extraction. -/
def SolvedRun (cmd : List (Char × Option String)) (env : Env V Ch σ S D) (o : Options)
    (t : SPACE) (x y : V) : Prop :=
  parseOptions cmd defaultOptions = some o ∧ selectSpace o.space = some t ∧
  env.parseProblem o.problem o.artificalSleep o.links = some (x, y) ∧
  env.parsePlanner o.plannerName (rangeOf t) = true ∧
  (env.solve o.planningTime).toBool = true

/-- Whether the option loop goes on after an option occurrence, that is, the
switch on the result of `getopt` does not reach `default`. -/
def accepted (occ : Char × Option String) : Bool :=
  (optionSwitch (getopt optstring occ.1 occ.2).1 (getopt optstring occ.1 occ.2).2
    defaultOptions).isSome

/-- The results of `traverseManifold` for the consecutive pairs of a waypoint
list, in call order: for each pair the state of the space after the call and
the returned state sequence. The space starts in state `s`. -/
def traversals (sp : ConstrainedStateSpace σ S D) : σ → List S → List (σ × List S)
  | s, a :: b :: rest =>
    sp.traverseManifold s a b :: traversals sp (sp.traverseManifold s a b).1 (b :: rest)
  | _, _ => []

/-- The distances between the consecutive states of a sequence, in order,
measured in space state `s`. -/
def consecutiveDistances (sp : ConstrainedStateSpace σ S D) (s : σ) : List S → List D
  | a :: b :: rest => sp.distance s a b :: consecutiveDistances sp s (b :: rest)
  | _ => []

/-- Whether `equalStates` holds of the first and the last state of a traversal
result (`false` for an empty sequence). -/
def closedSegment (sp : ConstrainedStateSpace σ S D) (r : σ × List S) : Bool :=
  match r.2.head?, r.2.getLast? with
  | some front, some back => sp.equalStates r.1 front back
  | _, _ => false

/-- The states of one traversal result that belong in `anim.txt` according to
the guard of the loop body: the first state alone when `equalStates` holds of
the first and last state, otherwise all states but the first. -/
def segmentStates (sp : ConstrainedStateSpace σ S D) (r : σ × List S) : List S :=
  if closedSegment sp r = true then r.2.take 1 else r.2.tail

/-- The distances of one traversal result that count for the length: none when
`equalStates` holds of the first and last state, otherwise the distances between
consecutive states. -/
def segmentDistances (sp : ConstrainedStateSpace σ S D) (r : σ × List S) : List D :=
  if closedSegment sp r = true then [] else consecutiveDistances sp r.1 r.2

end Observations

/-! ## Example runs -/

/-- An example space whose states are natural numbers on a line: a traversal
returns the start, the midpoint and the end (one state for zero displacement)
and counts the calls in the space state; two states are equal when they differ
by at most `tol`; the distance is the absolute difference. -/
def lineSpace (tol : Nat) : ConstrainedStateSpace Nat Nat Nat where
  traverseManifold := fun s a b => (s + 1, if a = b then [a] else [a, (a + b) / 2, b])
  equalStates := fun _ a b => decide ((a - b) + (b - a) ≤ tol)
  distance := fun _ a b => (a - b) + (b - a)

/-- A planner status for an exact solution. -/
def exactSolution : PlannerStatus := { toBool := true, isApproximate := false }

/-- A planner status for an approximate solution. -/
def approximateSolution : PlannerStatus := { toBool := true, isApproximate := true }

/-- A planner status for a failed search. -/
def noSolution : PlannerStatus := { toBool := false, isApproximate := false }

/-- An example environment: the only problem is `sphere`, from (1,0,0) to
(0,1,0); the only planner is `RRTConnect`; the planner ends with status `stat`
and solution path `ws` in the space `lineSpace tol`; charts are numbered in the
order they are anchored. -/
def lineEnv (tol : Nat) (ws : List Nat) (stat : PlannerStatus) :
    Env (List Nat) Nat Nat Nat Nat where
  parseProblem := fun p _ _ => if p = "sphere" then some ([1, 0, 0], [0, 1, 0]) else none
  vectorSize := List.length
  anchorChart := fun anchoredBefore _ => anchoredBefore.length
  parsePlanner := fun n _ => decide (n = "RRTConnect")
  solve := fun _ => stat
  waypoints := ws
  cssState := 0
  css := lineSpace tol
  hasApproxGoalDistance := false

/-- The options after the command line `-s atlas`. -/
def atlasOptions : Options := { defaultOptions with space := "atlas" }

/-! ## Auxiliary lemmas: option parsing -/

theorem selectSpace_atlas (s : String) : selectSpace s = some SPACE.ATLAS ↔ s = "atlas" := by
  unfold selectSpace
  constructor
  · intro h
    split_ifs at h with h1 h2 h3
    · exact h1.symm
    · cases h
    · cases h
  · intro h; subst h; decide

theorem selectSpace_projected (s : String) :
    selectSpace s = some SPACE.PROJECTED ↔ s = "projected" := by
  unfold selectSpace
  constructor
  · intro h
    split_ifs at h with h1 h2 h3
    · cases h
    · exact h2.symm
    · cases h
  · intro h; subst h; decide

theorem selectSpace_null (s : String) :
    selectSpace s = some SPACE.NULLSPACE ↔ s = "null" := by
  unfold selectSpace
  constructor
  · intro h
    split_ifs at h with h1 h2 h3
    · cases h
    · cases h
    · exact h3.symm
  · intro h; subst h; decide

theorem selectSpace_none (s : String) :
    selectSpace s = none ↔ (s ≠ "atlas" ∧ s ≠ "projected" ∧ s ≠ "null") := by
  unfold selectSpace
  constructor
  · intro h
    split_ifs at h with h1 h2 h3
    exact ⟨fun e => h1 e.symm, fun e => h2 e.symm, fun e => h3 e.symm⟩
  · rintro ⟨h1, h2, h3⟩
    rw [if_neg (fun e => h1 e.symm), if_neg (fun e => h2 e.symm), if_neg (fun e => h3 e.symm)]

theorem getopt_fst (letter : Char) (arg : Option String) :
    (getopt optstring letter arg).1 = letter ∨ (getopt optstring letter arg).1 = '?' := by
  have hhead : optstring.head? ≠ some ':' := by decide
  unfold getopt
  by_cases hcolon : letter = ':'
  · right; simp [hcolon]
  · rw [if_neg hcolon]
    cases lookupOpt optstring letter with
    | none => right; rfl
    | some b =>
      cases b with
      | false => left; rfl
      | true =>
        cases arg with
        | some a => left; rfl
        | none => right; simp [hhead]

theorem parseOptions_space (cmd : List (Char × Option String)) :
    ∀ (o o' : Options), (∀ occ ∈ cmd, occ.1 ≠ 's') → parseOptions cmd o = some o' →
      o'.space = o.space := by
  induction cmd with
  | nil => intro o o' _ h; simp only [parseOptions, Option.some.injEq] at h; rw [h]
  | cons occ rest ih =>
    intro o o' hs h
    obtain ⟨letter, arg⟩ := occ
    have hl : letter ≠ 's' := hs (letter, arg) (List.mem_cons_self _ _)
    have hc : (getopt optstring letter arg).1 ≠ 's' := by
      rcases getopt_fst letter arg with h1 | h1
      · rw [h1]; exact hl
      · rw [h1]; decide
    unfold parseOptions at h
    split at h
    · cases h
    · rename_i o1 hsw
      have h1 : o1.space = o.space := by
        unfold optionSwitch at hsw
        split_ifs at hsw <;> simp only [Option.some.injEq] at hsw <;> rw [← hsw]
      rw [ih o1 o' (fun occ hmem => hs occ (List.mem_cons_of_mem _ hmem)) h, h1]

theorem parseOptions_accepted (cmd : List (Char × Option String)) :
    ∀ (o : Options), (parseOptions cmd o).isSome = true ↔ ∀ occ ∈ cmd, accepted occ = true := by
  induction cmd with
  | nil => intro o; simp [parseOptions]
  | cons occ rest ih =>
    intro o
    obtain ⟨letter, arg⟩ := occ
    have hsw : ∀ o1 : Options,
        (optionSwitch (getopt optstring letter arg).1 (getopt optstring letter arg).2 o1).isSome
          = accepted (letter, arg) := by
      intro o1
      unfold accepted optionSwitch
      split_ifs <;> rfl
    unfold parseOptions
    have h0 := hsw o
    split
    · rename_i hnone
      rw [hnone] at h0
      simp [← h0]
    · rename_i o1 hsome
      rw [hsome] at h0
      simp [← h0, ih o1]

theorem accepted_iff (letter : Char) (arg : Option String) :
    accepted (letter, arg) = true ↔
      letter = 'o' ∨ (letter ∈ ['c', 'p', 's', 'w', 't', 'n'] ∧ arg ≠ none) := by
  by_cases hc : letter = 'c'
  · subst hc; cases arg <;> simp [accepted, getopt, optstring, lookupOpt, optionSwitch]
  by_cases hp : letter = 'p'
  · subst hp; cases arg <;> simp [accepted, getopt, optstring, lookupOpt, optionSwitch]
  by_cases hs : letter = 's'
  · subst hs; cases arg <;> simp [accepted, getopt, optstring, lookupOpt, optionSwitch]
  by_cases hw : letter = 'w'
  · subst hw; cases arg <;> simp [accepted, getopt, optstring, lookupOpt, optionSwitch]
  by_cases ht : letter = 't'
  · subst ht; cases arg <;> simp [accepted, getopt, optstring, lookupOpt, optionSwitch]
  by_cases hn : letter = 'n'
  · subst hn; cases arg <;> simp [accepted, getopt, optstring, lookupOpt, optionSwitch]
  by_cases ho : letter = 'o'
  · subst ho; cases arg <;> simp [accepted, getopt, optstring, lookupOpt, optionSwitch]
  by_cases hcolon : letter = ':'
  · subst hcolon; simp [accepted, getopt, optionSwitch]
  · have hlook : lookupOpt optstring letter = none := by
      simp [optstring, lookupOpt, Ne.symm hc, Ne.symm hp, Ne.symm hs, Ne.symm hw, Ne.symm ht,
        Ne.symm hn, Ne.symm ho, Ne.symm hcolon]
    simp [accepted, getopt, hlook, hcolon, optionSwitch, hc, hp, hs, hw, ht, hn, ho]

/-! ## Auxiliary lemmas: the path extraction loop -/

theorem loopBound_succ (n : Nat) (h : n + 1 < 2 ^ SIZE_WIDTH) : loopBound (n + 1) = n := by
  unfold loopBound
  unfold SIZE_WIDTH at *
  omega

theorem loopBound_zero : loopBound 0 = 2 ^ 64 - 1 := by
  decide

section LoopLemmas

variable {σ S D : Type}

theorem traversals_length (sp : ConstrainedStateSpace σ S D) :
    ∀ (ws : List S) (s : σ), (traversals sp s ws).length = ws.length - 1 := by
  intro ws
  induction ws with
  | nil => intro s; rfl
  | cons a rest ih =>
    intro s
    cases rest with
    | nil => rfl
    | cons b rest =>
      simp only [traversals, List.length_cons, ih]
      simp

/-- A traversal result whose first and last states are known and not equal by
`equalStates` is not closed, and has at least two states when `equalStates` is
reflexive. -/
theorem open_of_endpoints (sp : ConstrainedStateSpace σ S D) (r : σ × List S) (a b : S)
    (hh : r.2.head? = some a) (hl : r.2.getLast? = some b)
    (hne : sp.equalStates r.1 a b = false) : closedSegment sp r = false := by
  unfold closedSegment
  rw [hh, hl]
  exact hne

theorem tail_getLast_of_endpoints (sp : ConstrainedStateSpace σ S D) (r : σ × List S) (a b : S)
    (hrefl : ∀ s c, sp.equalStates s c c = true)
    (hh : r.2.head? = some a) (hl : r.2.getLast? = some b)
    (hne : sp.equalStates r.1 a b = false) : (r.2.drop 1).getLast? = some b := by
  obtain ⟨s, l⟩ := r
  cases l with
  | nil => simp at hh
  | cons h tl =>
    cases tl with
    | nil =>
      simp only [List.head?_cons, Option.some.injEq, List.getLast?_singleton] at hh hl
      subst hh
      subst hl
      rw [hrefl] at hne
      cases hne
    | cons h2 tl =>
      simpa using hl

theorem mem_traversals_endpoints (sp : ConstrainedStateSpace σ S D) (s0 : σ) (ws : List S)
    (r : σ × List S) (hr : r ∈ traversals sp s0 ws) :
    ∃ (i : Nat) (a b : S), (traversals sp s0 ws)[i]? = some r ∧ ws[i]? = some a ∧
      ws[i + 1]? = some b := by
  obtain ⟨i, hi⟩ := List.mem_iff_getElem?.mp hr
  obtain ⟨hlt, _⟩ := List.getElem?_eq_some.mp hi
  rw [traversals_length] at hlt
  have h1 : i < ws.length := by omega
  have h2 : i + 1 < ws.length := by omega
  exact ⟨i, ws[i], ws[i + 1], hi, List.getElem?_eq_getElem h1, List.getElem?_eq_getElem h2⟩

variable [Add D]

theorem printIntermediate_run (sp : ConstrainedStateSpace σ S D) :
    ∀ (rest pre : List S) (a : S) (st : LoopState σ S D),
      printIntermediate sp (pre ++ a :: rest) rest.length (pre.length + 1) st =
        { st with animFile := st.animFile ++ rest,
                  length := (consecutiveDistances sp st.css (a :: rest)).foldl (· + ·) st.length } := by
  intro rest
  induction rest with
  | nil => intro pre a st; simp [printIntermediate, consecutiveDistances]
  | cons b rest ih =>
    intro pre a st
    have h1 : (pre ++ a :: b :: rest)[pre.length + 1]? = some b := by
      rw [List.getElem?_append_right (by omega)]; simp
    have h2 : (pre ++ a :: b :: rest)[pre.length]? = some a := by
      rw [List.getElem?_append_right (by omega)]; simp
    have h3 := ih (pre ++ [a]) b
      { st with animFile := st.animFile ++ [b], length := st.length + sp.distance st.css a b }
    simp only [List.append_assoc, List.singleton_append, List.length_append, List.length_singleton] at h3
    simp only [List.length_cons, printIntermediate, h1, h2, Nat.add_sub_cancel, h3]
    simp [consecutiveDistances]

theorem traverseAndPrint_run (sp : ConstrainedStateSpace σ S D) (st : LoopState σ S D) (a b : S)
    (hne : (sp.traverseManifold st.css a b).2 ≠ []) :
    traverseAndPrint sp st a b =
      { st with css := (sp.traverseManifold st.css a b).1,
                animFile := st.animFile ++ segmentStates sp (sp.traverseManifold st.css a b),
                length := (segmentDistances sp (sp.traverseManifold st.css a b)).foldl (· + ·)
                            st.length } := by
  rcases hr : sp.traverseManifold st.css a b with ⟨s1, l⟩
  rw [hr] at hne
  cases l with
  | nil => exact absurd rfl hne
  | cons h tl =>
    have hlast : (h :: tl).getLast? = some ((h :: tl).getLast (by simp)) :=
      List.getLast?_eq_getLast _ _
    unfold traverseAndPrint
    simp only [hr, List.head?_cons, hlast, segmentStates, segmentDistances, closedSegment]
    by_cases heq : sp.equalStates s1 h ((h :: tl).getLast (by simp)) = true
    · simp [heq]
    · have h3 := printIntermediate_run sp tl [] h { st with css := s1 }
      simp only [List.nil_append, List.length_nil, Nat.zero_add] at h3
      simp [heq, h3]

theorem waypointLoop_run (sp : ConstrainedStateSpace σ S D) :
    ∀ (rest pre : List S) (a : S) (st : LoopState σ S D), st.fault = none →
      (∀ r ∈ traversals sp st.css (a :: rest), r.2 ≠ []) →
      (waypointLoop sp (pre ++ a :: rest) rest.length pre.length st).animFile =
          st.animFile ++ (traversals sp st.css (a :: rest)).flatMap (segmentStates sp) ∧
      (waypointLoop sp (pre ++ a :: rest) rest.length pre.length st).length =
          ((traversals sp st.css (a :: rest)).flatMap (segmentDistances sp)).foldl (· + ·)
            st.length ∧
      (waypointLoop sp (pre ++ a :: rest) rest.length pre.length st).reads =
          st.reads ++ (List.range' pre.length rest.length).flatMap (fun i => [i, i + 1]) ∧
      (waypointLoop sp (pre ++ a :: rest) rest.length pre.length st).iterations =
          st.iterations + rest.length ∧
      (waypointLoop sp (pre ++ a :: rest) rest.length pre.length st).fault = none := by
  intro rest
  induction rest with
  | nil => intro pre a st hf _; simp [waypointLoop, traversals, hf]
  | cons b rest ih =>
    intro pre a st hf hne
    have h1 : (pre ++ a :: b :: rest)[pre.length]? = some a := by
      rw [List.getElem?_append_right (by omega)]; simp
    have h2 : (pre ++ a :: b :: rest)[pre.length + 1]? = some b := by
      rw [List.getElem?_append_right (by omega)]; simp
    have hr : (sp.traverseManifold st.css a b).2 ≠ [] :=
      hne _ (by simp [traversals])
    have hrest : ∀ r ∈ traversals sp (sp.traverseManifold st.css a b).1 (b :: rest), r.2 ≠ [] :=
      fun r hmem => hne r (by simp [traversals, hmem])
    have hbody := traverseAndPrint_run sp { st with reads := st.reads ++ [pre.length, pre.length + 1] }
      a b hr
    have h3 := ih (pre ++ [a]) b
      { css := (sp.traverseManifold st.css a b).1,
        animFile := st.animFile ++ segmentStates sp (sp.traverseManifold st.css a b),
        length := (segmentDistances sp (sp.traverseManifold st.css a b)).foldl (· + ·) st.length,
        reads := st.reads ++ [pre.length, pre.length + 1],
        iterations := st.iterations + 1,
        fault := none } rfl hrest
    simp only [List.append_assoc, List.singleton_append, List.length_append,
      List.length_singleton] at h3
    dsimp only at hbody
    rw [hf] at hbody
    simp only [List.length_cons, waypointLoop, h1, h2, hf, hbody]
    obtain ⟨e1, e2, e3, e4, e5⟩ := h3
    refine ⟨?_, ?_, ?_, ?_, ?_⟩
    · rw [e1]; simp [traversals]
    · rw [e2]; simp [traversals]
    · rw [e3]; simp [List.range'_succ]
    · rw [e4]; omega
    · exact e5

theorem printIntermediate_reads (sp : ConstrainedStateSpace σ S D) (l : List S) :
    ∀ (fuel i : Nat) (st : LoopState σ S D), (printIntermediate sp l fuel i st).reads = st.reads := by
  intro fuel
  induction fuel with
  | zero => intro i st; rfl
  | succ n ih =>
    intro i st
    unfold printIntermediate
    split
    · rfl
    · split
      · rfl
      · rw [ih]

theorem traverseAndPrint_reads (sp : ConstrainedStateSpace σ S D) (st : LoopState σ S D) (a b : S) :
    (traverseAndPrint sp st a b).reads = st.reads := by
  unfold traverseAndPrint
  dsimp only
  split
  · split
    · rfl
    · rw [printIntermediate_reads]
  · rfl

theorem waypointLoop_reads_lt (sp : ConstrainedStateSpace σ S D) (ws : List S) :
    ∀ (fuel i : Nat) (st : LoopState σ S D), i + fuel < ws.length →
      (∀ k ∈ st.reads, k < ws.length) →
      ∀ k ∈ (waypointLoop sp ws fuel i st).reads, k < ws.length := by
  intro fuel
  induction fuel with
  | zero => intro i st _ hst; exact hst
  | succ n ih =>
    intro i st hi hst
    unfold waypointLoop
    split
    · intro k hk
      simp only [List.mem_append, List.mem_singleton] at hk
      rcases hk with hk | hk
      · exact hst k hk
      · omega
    · split
      · intro k hk
        simp only [List.mem_append, List.mem_cons, List.mem_singleton, List.not_mem_nil, or_false] at hk
        rcases hk with hk | hk | hk
        · exact hst k hk
        · omega
        · omega
      · have hreads : ∀ k ∈ st.reads ++ [i, i + 1], k < ws.length := by
          intro k hk
          simp only [List.mem_append, List.mem_cons, List.mem_singleton, List.not_mem_nil, or_false] at hk
          rcases hk with hk | hk | hk
          · exact hst k hk
          · omega
          · omega
        dsimp only
        split
        · rw [traverseAndPrint_reads]; exact hreads
        · apply ih
          · omega
          · dsimp only
            rw [traverseAndPrint_reads]; exact hreads

variable [Zero D]

theorem extractPath_run (sp : ConstrainedStateSpace σ S D) (s0 : σ) (ws : List S)
    (hne : ws ≠ []) (hsize : ws.length < 2 ^ SIZE_WIDTH)
    (htrav : ∀ r ∈ traversals sp s0 ws, r.2 ≠ []) :
    (extractPath sp s0 ws).animFile = (traversals sp s0 ws).flatMap (segmentStates sp) ∧
    (extractPath sp s0 ws).length =
      ((traversals sp s0 ws).flatMap (segmentDistances sp)).foldl (· + ·) 0 ∧
    (extractPath sp s0 ws).reads = (List.range (ws.length - 1)).flatMap (fun i => [i, i + 1]) ∧
    (extractPath sp s0 ws).iterations = ws.length - 1 ∧
    (extractPath sp s0 ws).fault = none := by
  cases ws with
  | nil => exact absurd rfl hne
  | cons a rest =>
    have hb : loopBound (a :: rest).length = rest.length := loopBound_succ _ hsize
    have h := waypointLoop_run sp rest [] a
      { css := s0, animFile := [], length := 0, reads := [], iterations := 0, fault := none }
      rfl htrav
    simp only [List.nil_append, List.length_nil, Nat.zero_add] at h
    unfold extractPath
    rw [hb, List.range_eq_range']
    simpa using h

theorem extractPath_reads_lt (sp : ConstrainedStateSpace σ S D) (s0 : σ) (ws : List S)
    (hne : ws ≠ []) (hsize : ws.length < 2 ^ SIZE_WIDTH) :
    ∀ k ∈ (extractPath sp s0 ws).reads, k < ws.length := by
  cases ws with
  | nil => exact absurd rfl hne
  | cons a rest =>
    have hb : loopBound (a :: rest).length = rest.length := loopBound_succ _ hsize
    unfold extractPath
    rw [hb]
    apply waypointLoop_reads_lt
    · simp
    · intro k hk; simp at hk

theorem extractPath_nil (sp : ConstrainedStateSpace σ S D) (s0 : σ) :
    extractPath sp s0 [] =
      { css := s0, animFile := [], length := 0, reads := [0], iterations := 0,
        fault := some (Fault.waypointIndex 0) } := by
  unfold extractPath
  rw [List.length_nil, loopBound_zero]
  rfl

end LoopLemmas

/-! ## Auxiliary lemmas: the run of `main` -/

section MainLemmas

variable {V Ch σ S D : Type}

theorem reportedLength_configureSpace (env : Env V Ch σ S D) (t : SPACE) (x y : V) :
    (configureSpace env t x y).filterMap Event.reportedLength = [] := by
  cases t <;> rfl

theorem animStates_configureSpace (env : Env V Ch σ S D) (t : SPACE) (x y : V) :
    (configureSpace env t x y).filterMap Event.animStates = [] := by
  cases t <;> rfl

theorem reportedLength_reportAndDump (env : Env V Ch σ S D) (o : Options) (t : SPACE) (x : V) :
    (reportAndDump env o t x).filterMap Event.reportedLength = [] := by
  unfold reportAndDump
  simp only [List.filterMap_append]
  split_ifs <;> rfl

theorem animStates_reportAndDump (env : Env V Ch σ S D) (o : Options) (t : SPACE) (x : V) :
    (reportAndDump env o t x).filterMap Event.animStates = [] := by
  unfold reportAndDump
  simp only [List.filterMap_append]
  split_ifs <;> rfl

theorem isSetting_usage (progname : String) :
    (usage progname : List (Event V Ch S D)).filter Event.isSetting = [] := by
  simp [usage, Event.isSetting]

theorem anchored_usage (progname : String) :
    (usage progname : List (Event V Ch S D)).filterMap Event.anchored = [] := by
  simp [usage, Event.anchored]

theorem realState_usage (progname : String) :
    (usage progname : List (Event V Ch S D)).filterMap Event.realState = [] := by
  simp [usage, Event.realState]

theorem isSetting_reportAndDump (env : Env V Ch σ S D) (o : Options) (t : SPACE) (x : V) :
    (reportAndDump env o t x).filter Event.isSetting = [] := by
  unfold reportAndDump
  simp only [List.filter_append]
  split_ifs <;> rfl

theorem anchored_reportAndDump (env : Env V Ch σ S D) (o : Options) (t : SPACE) (x : V) :
    (reportAndDump env o t x).filterMap Event.anchored = [] := by
  unfold reportAndDump
  simp only [List.filterMap_append]
  split_ifs <;> rfl

theorem realState_reportAndDump (env : Env V Ch σ S D) (o : Options) (t : SPACE) (x : V) :
    (reportAndDump env o t x).filterMap Event.realState = [] := by
  unfold reportAndDump
  simp only [List.filterMap_append]
  split_ifs <;> rfl

theorem chartCount_configureSpace (env : Env V Ch σ S D) (t : SPACE) (x y : V) :
    Event.coutChartCount ∉ configureSpace env t x y ∧
    Event.coutFrontierPercent ∉ configureSpace env t x y := by
  cases t <;> simp [configureSpace]

theorem chartCount_reportAndDump (env : Env V Ch σ S D) (o : Options) (t : SPACE) (x : V) :
    (Event.coutChartCount ∈ reportAndDump env o t x ↔ t = SPACE.ATLAS) ∧
    (Event.coutFrontierPercent ∈ reportAndDump env o t x ↔ t = SPACE.ATLAS) := by
  unfold reportAndDump
  constructor <;> split_ifs <;> simp_all

variable [Zero D] [Add D]

theorem main_of_passed (progname : String) (cmd : List (Char × Option String))
    (env : Env V Ch σ S D) (o : Options) (t : SPACE) (x y : V)
    (h1 : parseOptions cmd defaultOptions = some o) (h2 : selectSpace o.space = some t)
    (h3 : env.parseProblem o.problem o.artificalSleep o.links = some (x, y))
    (h4 : env.parsePlanner o.plannerName (rangeOf t) = true) :
    main progname cmd env =
      { events :=
          [Event.parseProblem o.problem o.artificalSleep o.links,
           Event.printfHeader o.space o.plannerName o.problem o.planningTime o.artificalSleep]
          ++ configureSpace env t x y
          ++ [Event.setStateValidityChecker, Event.setBounds (-20) 20,
              Event.parsePlanner o.plannerName (rangeOf t)]
          ++ [Event.setPlanner, Event.setup, Event.solve o.planningTime]
          ++ (solved env o t x (env.solve o.planningTime)).events,
        termination := (solved env o t x (env.solve o.planningTime)).termination } := by
  unfold main
  simp only [h1, h2, h3, h4, if_true]

theorem main_of_invalid_planner (progname : String) (cmd : List (Char × Option String))
    (env : Env V Ch σ S D) (o : Options) (t : SPACE) (x y : V)
    (h1 : parseOptions cmd defaultOptions = some o) (h2 : selectSpace o.space = some t)
    (h3 : env.parseProblem o.problem o.artificalSleep o.links = some (x, y))
    (h4 : env.parsePlanner o.plannerName (rangeOf t) = false) :
    main progname cmd env =
      { events :=
          [Event.parseProblem o.problem o.artificalSleep o.links,
           Event.printfHeader o.space o.plannerName o.problem o.planningTime o.artificalSleep]
          ++ configureSpace env t x y
          ++ [Event.setStateValidityChecker, Event.setBounds (-20) 20,
              Event.parsePlanner o.plannerName (rangeOf t)]
          ++ [Event.cout "Invalid planner.\n"] ++ usage progname,
        termination := Termination.exited } := by
  unfold main
  simp only [h1, h2, h3, h4, Bool.false_eq_true, if_false]

theorem main_of_invalid_problem (progname : String) (cmd : List (Char × Option String))
    (env : Env V Ch σ S D) (o : Options) (t : SPACE)
    (h1 : parseOptions cmd defaultOptions = some o) (h2 : selectSpace o.space = some t)
    (h3 : env.parseProblem o.problem o.artificalSleep o.links = none) :
    main progname cmd env =
      { events := [Event.parseProblem o.problem o.artificalSleep o.links,
                   Event.cout "Invalid problem.\n"] ++ usage progname,
        termination := Termination.exited } := by
  unfold main
  simp only [h1, h2, h3]

theorem solved_of_found (env : Env V Ch σ S D) (o : Options) (t : SPACE) (x : V)
    (stat : PlannerStatus) (h5 : stat.toBool = true)
    (hf : (extractPath env.css env.cssState env.waypoints).fault = none) :
    solved env o t x stat =
      { events := [Event.simplifySolution]
          ++ (if env.vectorSize x = 3 ∧ o.output = true then [Event.dumpPath] else [])
          ++ [Event.animFile (extractPath env.css env.cssState env.waypoints).animFile]
          ++ (if stat.isApproximate = true then
                [Event.cout "Solution is approximate.\n"] else [])
          ++ [Event.coutLength (extractPath env.css env.cssState env.waypoints).length,
              Event.coutTook]
          ++ reportAndDump env o t x,
        termination := Termination.returned } := by
  unfold solved
  rw [if_pos h5]
  simp only [hf]

theorem main_solved_observations (progname : String) (cmd : List (Char × Option String))
    (env : Env V Ch σ S D) (o : Options) (t : SPACE) (x y : V)
    (hrun : SolvedRun cmd env o t x y)
    (hf : (extractPath env.css env.cssState env.waypoints).fault = none) :
    (main progname cmd env).reportedLengths =
        [(extractPath env.css env.cssState env.waypoints).length] ∧
    (main progname cmd env).animFiles =
        [(extractPath env.css env.cssState env.waypoints).animFile] ∧
    (main progname cmd env).termination = Termination.returned := by
  obtain ⟨h1, h2, h3, h4, h5⟩ := hrun
  rw [main_of_passed progname cmd env o t x y h1 h2 h3 h4,
    solved_of_found env o t x _ h5 hf]
  unfold Outcome.reportedLengths Outcome.animFiles
  dsimp only
  simp only [List.filterMap_append, reportedLength_configureSpace,
    animStates_configureSpace, reportedLength_reportAndDump, animStates_reportAndDump]
  refine ⟨?_, ?_, trivial⟩
  · split_ifs <;> rfl
  · split_ifs <;> rfl

theorem solved_of_fault (env : Env V Ch σ S D) (o : Options) (t : SPACE) (x : V)
    (stat : PlannerStatus) (f : Fault) (h5 : stat.toBool = true)
    (hf : (extractPath env.css env.cssState env.waypoints).fault = some f) :
    solved env o t x stat =
      { events := [Event.simplifySolution]
          ++ (if env.vectorSize x = 3 ∧ o.output = true then [Event.dumpPath] else [])
          ++ [Event.animFile (extractPath env.css env.cssState env.waypoints).animFile],
        termination := Termination.undefined f } := by
  unfold solved
  rw [if_pos h5]
  simp only [hf]

theorem solved_of_not_found (env : Env V Ch σ S D) (o : Options) (t : SPACE) (x : V)
    (stat : PlannerStatus) (h5 : stat.toBool = false) :
    solved env o t x stat =
      { events := [Event.cout "No solution found.\n"] ++ reportAndDump env o t x,
        termination := Termination.returned } := by
  unfold solved
  rw [if_neg (by rw [h5]; exact Bool.false_ne_true)]

/-- The three ways the planner part of `main` can go. -/
theorem solved_cases (env : Env V Ch σ S D) (o : Options) (t : SPACE) (x : V)
    (stat : PlannerStatus) :
    (∃ f, solved env o t x stat =
      { events := [Event.simplifySolution]
          ++ (if env.vectorSize x = 3 ∧ o.output = true then [Event.dumpPath] else [])
          ++ [Event.animFile (extractPath env.css env.cssState env.waypoints).animFile],
        termination := Termination.undefined f }) ∨
    solved env o t x stat =
      { events := [Event.simplifySolution]
          ++ (if env.vectorSize x = 3 ∧ o.output = true then [Event.dumpPath] else [])
          ++ [Event.animFile (extractPath env.css env.cssState env.waypoints).animFile]
          ++ (if stat.isApproximate = true then
                [Event.cout "Solution is approximate.\n"] else [])
          ++ [Event.coutLength (extractPath env.css env.cssState env.waypoints).length,
              Event.coutTook]
          ++ reportAndDump env o t x,
        termination := Termination.returned } ∨
    solved env o t x stat =
      { events := [Event.cout "No solution found.\n"] ++ reportAndDump env o t x,
        termination := Termination.returned } := by
  cases h5 : stat.toBool with
  | false => exact Or.inr (Or.inr (solved_of_not_found env o t x stat h5))
  | true =>
    cases hf : (extractPath env.css env.cssState env.waypoints).fault with
    | none => exact Or.inr (Or.inl (solved_of_found env o t x stat h5 hf))
    | some f => exact Or.inl ⟨f, solved_of_fault env o t x stat f h5 hf⟩

theorem isSetting_solved (env : Env V Ch σ S D) (o : Options) (t : SPACE) (x : V)
    (stat : PlannerStatus) : (solved env o t x stat).events.filter Event.isSetting = [] := by
  rcases solved_cases env o t x stat with ⟨f, h⟩ | h | h <;> rw [h] <;> dsimp only <;>
    simp only [List.filter_append, isSetting_reportAndDump]
  · split_ifs <;> rfl
  · split_ifs <;> rfl
  · rfl

theorem anchored_solved (env : Env V Ch σ S D) (o : Options) (t : SPACE) (x : V)
    (stat : PlannerStatus) : (solved env o t x stat).events.filterMap Event.anchored = [] := by
  rcases solved_cases env o t x stat with ⟨f, h⟩ | h | h <;> rw [h] <;> dsimp only <;>
    simp only [List.filterMap_append, anchored_reportAndDump]
  · split_ifs <;> rfl
  · split_ifs <;> rfl
  · rfl

theorem realState_solved (env : Env V Ch σ S D) (o : Options) (t : SPACE) (x : V)
    (stat : PlannerStatus) : (solved env o t x stat).events.filterMap Event.realState = [] := by
  rcases solved_cases env o t x stat with ⟨f, h⟩ | h | h <;> rw [h] <;> dsimp only <;>
    simp only [List.filterMap_append, realState_reportAndDump]
  · split_ifs <;> rfl
  · split_ifs <;> rfl
  · rfl

theorem chartCount_solved (env : Env V Ch σ S D) (o : Options) (t : SPACE) (x : V)
    (stat : PlannerStatus) (hret : (solved env o t x stat).termination = Termination.returned) :
    (Event.coutChartCount ∈ (solved env o t x stat).events ↔ t = SPACE.ATLAS) ∧
    (Event.coutFrontierPercent ∈ (solved env o t x stat).events ↔ t = SPACE.ATLAS) := by
  have hrd := chartCount_reportAndDump env o t x
  rcases solved_cases env o t x stat with ⟨f, h⟩ | h | h
  · rw [h] at hret; cases hret
  · rw [h]
    dsimp only
    simp only [List.mem_append, hrd]
    constructor <;> split_ifs <;> simp
  · rw [h]
    dsimp only
    simp only [List.mem_append, hrd]
    simp

theorem chartCount_solved_only (env : Env V Ch σ S D) (o : Options) (t : SPACE) (x : V)
    (stat : PlannerStatus) :
    (Event.coutChartCount ∈ (solved env o t x stat).events → t = SPACE.ATLAS) ∧
    (Event.coutFrontierPercent ∈ (solved env o t x stat).events → t = SPACE.ATLAS) := by
  rcases solved_cases env o t x stat with ⟨f, h⟩ | h | h
  · rw [h]
    dsimp only
    simp only [List.mem_append]
    constructor <;> split_ifs <;> simp
  · have hs := chartCount_solved env o t x stat (by rw [h])
    exact ⟨hs.1.mp, hs.2.mp⟩
  · have hs := chartCount_solved env o t x stat (by rw [h])
    exact ⟨hs.1.mp, hs.2.mp⟩

theorem chartCount_usage (progname : String) :
    Event.coutChartCount ∉ (usage progname : List (Event V Ch S D)) ∧
    Event.coutFrontierPercent ∉ (usage progname : List (Event V Ch S D)) := by
  simp [usage]

/-- The events of `main` once the options, the space and the problem are
accepted: the configuration, then either the planner part or the report of an
invalid planner. -/
theorem main_events_of_problem (progname : String) (cmd : List (Char × Option String))
    (env : Env V Ch σ S D) (o : Options) (t : SPACE) (x y : V)
    (h1 : parseOptions cmd defaultOptions = some o) (h2 : selectSpace o.space = some t)
    (h3 : env.parseProblem o.problem o.artificalSleep o.links = some (x, y)) :
    ∃ rest : List (Event V Ch S D),
      (main progname cmd env).events =
        [Event.parseProblem o.problem o.artificalSleep o.links,
         Event.printfHeader o.space o.plannerName o.problem o.planningTime o.artificalSleep]
        ++ configureSpace env t x y ++ rest ∧
      rest.filter Event.isSetting = [] ∧ rest.filterMap Event.anchored = [] ∧
      rest.filterMap Event.realState = [] := by
  unfold main
  simp only [h1, h2, h3]
  split_ifs
  · refine ⟨[Event.setStateValidityChecker, Event.setBounds (-20) 20,
        Event.parsePlanner o.plannerName (rangeOf t)]
        ++ [Event.setPlanner, Event.setup, Event.solve o.planningTime]
        ++ (solved env o t x (env.solve o.planningTime)).events, ?_, ?_, ?_, ?_⟩
    · simp only [List.append_assoc]
    · simp only [List.filter_append, isSetting_solved]; rfl
    · simp only [List.filterMap_append, anchored_solved]; rfl
    · simp only [List.filterMap_append, realState_solved]; rfl
  · refine ⟨[Event.setStateValidityChecker, Event.setBounds (-20) 20,
        Event.parsePlanner o.plannerName (rangeOf t)]
        ++ [Event.cout "Invalid planner.\n"] ++ usage progname, ?_, ?_, ?_, ?_⟩
    · simp only [List.append_assoc]
    · simp only [List.filter_append, isSetting_usage]; rfl
    · simp only [List.filterMap_append, anchored_usage]; rfl
    · simp only [List.filterMap_append, realState_usage]; rfl

theorem constructed_usage (progname : String) :
    (usage progname : List (Event V Ch S D)).filterMap Event.constructed = [] := by
  simp [usage, Event.constructed]

theorem constructed_configureSpace (env : Env V Ch σ S D) (t : SPACE) (x y : V) :
    (configureSpace env t x y).filterMap Event.constructed = [t] := by
  cases t <;> rfl

theorem constructed_reportAndDump (env : Env V Ch σ S D) (o : Options) (t : SPACE) (x : V) :
    (reportAndDump env o t x).filterMap Event.constructed = [] := by
  unfold reportAndDump
  simp only [List.filterMap_append]
  split_ifs <;> rfl

theorem constructed_solved (env : Env V Ch σ S D) (o : Options) (t : SPACE) (x : V)
    (stat : PlannerStatus) : (solved env o t x stat).events.filterMap Event.constructed = [] := by
  rcases solved_cases env o t x stat with ⟨f, h⟩ | h | h <;> rw [h] <;> dsimp only <;>
    simp only [List.filterMap_append, constructed_reportAndDump]
  · split_ifs <;> rfl
  · split_ifs <;> rfl
  · rfl

/-- The state spaces a run of `main` constructs once the options, the space name
and the problem are accepted: the selected one, once. -/
theorem constructed_main_of_problem (progname : String) (cmd : List (Char × Option String))
    (env : Env V Ch σ S D) (o : Options) (t : SPACE) (x y : V)
    (h1 : parseOptions cmd defaultOptions = some o) (h2 : selectSpace o.space = some t)
    (h3 : env.parseProblem o.problem o.artificalSleep o.links = some (x, y)) :
    (main progname cmd env).events.filterMap Event.constructed = [t] := by
  cases h4 : env.parsePlanner o.plannerName (rangeOf t) with
  | false =>
    rw [main_of_invalid_planner progname cmd env o t x y h1 h2 h3 h4]
    dsimp only
    simp only [List.filterMap_append, constructed_configureSpace, constructed_usage]
    rfl
  | true =>
    rw [main_of_passed progname cmd env o t x y h1 h2 h3 h4]
    dsimp only
    simp only [List.filterMap_append, constructed_configureSpace, constructed_solved]
    rfl

/-- The planner part of `main` returns when the planner found no solution, and
when it found one whose path is not empty, fits `std::size_t` and has non-empty
traversal results. -/
theorem solved_returns (env : Env V Ch σ S D) (o : Options) (t : SPACE) (x : V)
    (stat : PlannerStatus)
    (hpath : stat.toBool = true →
      env.waypoints ≠ [] ∧ env.waypoints.length < 2 ^ SIZE_WIDTH ∧
      ∀ r ∈ traversals env.css env.cssState env.waypoints, r.2 ≠ []) :
    (solved env o t x stat).termination = Termination.returned := by
  cases h5 : stat.toBool with
  | false => rw [solved_of_not_found env o t x stat h5]
  | true =>
    obtain ⟨hne, hsize, htrav⟩ := hpath h5
    have hx := extractPath_run env.css env.cssState env.waypoints hne hsize htrav
    rw [solved_of_found env o t x stat h5 hx.2.2.2.2]

end MainLemmas

/-! ## The claims -/

/-- C1 (amended): in a run of `main` that reaches the path extraction with a
solution path of at least one waypoint, when every traversal returned a
non-empty state sequence, the one length `main` reports is the sum, accumulated
from 0 in waypoint order, of the distances between consecutive states of the
sequences whose first and last state are not equal by `equalStates`; a
sequence whose first and last state are equal adds nothing. -/
theorem C1_reported_length {V Ch σ S D : Type} [Zero D] [Add D]
    (progname : String) (cmd : List (Char × Option String)) (env : Env V Ch σ S D)
    (o : Options) (t : SPACE) (x y : V)
    (hrun : SolvedRun cmd env o t x y)
    (hne : env.waypoints ≠ [])
    (hsize : env.waypoints.length < 2 ^ SIZE_WIDTH)
    (htrav : ∀ r ∈ traversals env.css env.cssState env.waypoints, r.2 ≠ []) :
    (main progname cmd env).reportedLengths =
      [((traversals env.css env.cssState env.waypoints).flatMap
          (segmentDistances env.css)).foldl (· + ·) 0] := by
  have hx := extractPath_run env.css env.cssState env.waypoints hne hsize htrav
  have hm := main_solved_observations progname cmd env o t x y hrun hx.2.2.2.2
  rw [hm.1, hx.2.1]

/-- Witness for C1 (amended): the default run on the path 0, 10, 10, 4 reports the
length 16. -/
theorem C1_reported_length_witness :
    SolvedRun [] (lineEnv 0 [0, 10, 10, 4] exactSolution) defaultOptions
      SPACE.PROJECTED [1, 0, 0] [0, 1, 0] ∧
    (main "demo" [] (lineEnv 0 [0, 10, 10, 4] exactSolution)).reportedLengths =
      [((traversals (lineSpace 0) 0 [0, 10, 10, 4]).flatMap
          (segmentDistances (lineSpace 0))).foldl (· + ·) 0] ∧
    ((traversals (lineSpace 0) 0 [0, 10, 10, 4]).flatMap
          (segmentDistances (lineSpace 0))).foldl (· + ·) 0 = 16 :=
  ⟨⟨rfl, rfl, rfl, rfl, rfl⟩,
   C1_reported_length "demo" [] (lineEnv 0 [0, 10, 10, 4] exactSolution)
     defaultOptions SPACE.PROJECTED [1, 0, 0] [0, 1, 0] ⟨rfl, rfl, rfl, rfl, rfl⟩
     (by decide) (by decide) (by decide),
   by decide⟩

/-- C1 as stated fails: with the path 0, 2 in a space where states within
distance 2 are equal, the traversal returns 0, 1, 2, whose consecutive
distances sum to 2, but `main` reports the length 0. -/
theorem C1_counterexample :
    ((traversals (lineSpace 2) 0 [0, 2]).flatMap
        (fun r => consecutiveDistances (lineSpace 2) r.1 r.2)).foldl (· + ·) 0 = 2 ∧
    (main "demo" [] (lineEnv 2 [0, 2] exactSolution)).reportedLengths = [0] := by
  decide

/-- C2 (amended): in a run of `main` that reaches the path extraction with a
solution path of at least one waypoint, when every traversal returned a
non-empty state sequence, the states written to `anim.txt` are the
concatenation, in waypoint order, of one part per consecutive waypoint pair:
the first state of the returned sequence alone when its first and last state
are equal by `equalStates`, otherwise the returned sequence without its first
state. -/
theorem C2_anim_file {V Ch σ S D : Type} [Zero D] [Add D]
    (progname : String) (cmd : List (Char × Option String)) (env : Env V Ch σ S D)
    (o : Options) (t : SPACE) (x y : V)
    (hrun : SolvedRun cmd env o t x y)
    (hne : env.waypoints ≠ [])
    (hsize : env.waypoints.length < 2 ^ SIZE_WIDTH)
    (htrav : ∀ r ∈ traversals env.css env.cssState env.waypoints, r.2 ≠ []) :
    (main progname cmd env).animFiles =
      [(traversals env.css env.cssState env.waypoints).flatMap (segmentStates env.css)] := by
  have hx := extractPath_run env.css env.cssState env.waypoints hne hsize htrav
  have hm := main_solved_observations progname cmd env o t x y hrun hx.2.2.2.2
  rw [hm.2.1, hx.1]

/-- Witness for C2 (amended): the atlas run on the path 0, 10, 10, 4 writes the
states 5, 10, 10, 7, 4. -/
theorem C2_anim_file_witness :
    SolvedRun [('s', some "atlas")] (lineEnv 0 [0, 10, 10, 4] approximateSolution)
      atlasOptions SPACE.ATLAS [1, 0, 0] [0, 1, 0] ∧
    (main "demo" [('s', some "atlas")]
        (lineEnv 0 [0, 10, 10, 4] approximateSolution)).animFiles =
      [(traversals (lineSpace 0) 0 [0, 10, 10, 4]).flatMap (segmentStates (lineSpace 0))] ∧
    (traversals (lineSpace 0) 0 [0, 10, 10, 4]).flatMap (segmentStates (lineSpace 0)) =
      [5, 10, 10, 7, 4] :=
  ⟨⟨rfl, rfl, rfl, rfl, rfl⟩,
   C2_anim_file "demo" [('s', some "atlas")]
     (lineEnv 0 [0, 10, 10, 4] approximateSolution)
     atlasOptions SPACE.ATLAS [1, 0, 0] [0, 1, 0] ⟨rfl, rfl, rfl, rfl, rfl⟩
     (by decide) (by decide) (by decide),
   by decide⟩

/-- C2 as stated fails: with the path 0, 4 the traversal returns 0, 2, 4, but
`main` writes only 2, 4 to `anim.txt`. -/
theorem C2_counterexample :
    (traversals (lineSpace 0) 0 [0, 4]).flatMap (fun r => r.2) = [0, 2, 4] ∧
    (main "demo" [] (lineEnv 0 [0, 4] exactSolution)).animFiles = [[2, 4]] := by
  decide

/-- C3: `main` selects the atlas iff the space name is `atlas`, the projected
space iff it is `projected` and the null space iff it is `null`: the name test
of `main` gives these answers, and in every run of `main` with the options and
the problem accepted the state space `main` constructs is the atlas iff the
name is `atlas`, the projected space iff it is `projected` and the null space
iff it is `null`. For every other name (the option loop having completed) the
whole run of `main` is the report `Invalid constrained state space.` followed
by `usage`, which exits, so that no state space is constructed and no planner
is run. When no option `-s` occurs the selected space is the projected one, and
it is the one `main` constructs. -/
theorem C3_space_selection :
    (∀ s : String, selectSpace s = some SPACE.ATLAS ↔ s = "atlas") ∧
    (∀ s : String, selectSpace s = some SPACE.PROJECTED ↔ s = "projected") ∧
    (∀ s : String, selectSpace s = some SPACE.NULLSPACE ↔ s = "null") ∧
    (∀ {V Ch σ S D : Type} [Zero D] [Add D] (progname : String)
        (cmd : List (Char × Option String)) (env : Env V Ch σ S D) (o : Options),
      parseOptions cmd defaultOptions = some o →
      o.space ≠ "atlas" → o.space ≠ "projected" → o.space ≠ "null" →
      main progname cmd env =
          { events := [Event.cout "Invalid constrained state space.\n"] ++ usage progname,
            termination := Termination.exited } ∧
      (∀ t, Event.newStateSpace t ∉ (main progname cmd env).events) ∧
      (∀ d, Event.solve d ∉ (main progname cmd env).events)) ∧
    (∀ (cmd : List (Char × Option String)) (o : Options),
      parseOptions cmd defaultOptions = some o → (∀ occ ∈ cmd, occ.1 ≠ 's') →
      o.space = "projected" ∧ selectSpace o.space = some SPACE.PROJECTED) ∧
    (∀ {V Ch σ S D : Type} [Zero D] [Add D] (progname : String)
        (cmd : List (Char × Option String)) (env : Env V Ch σ S D) (o : Options) (x y : V),
      parseOptions cmd defaultOptions = some o →
      env.parseProblem o.problem o.artificalSleep o.links = some (x, y) →
      ((main progname cmd env).events.filterMap Event.constructed = [SPACE.ATLAS] ↔
        o.space = "atlas") ∧
      ((main progname cmd env).events.filterMap Event.constructed = [SPACE.PROJECTED] ↔
        o.space = "projected") ∧
      ((main progname cmd env).events.filterMap Event.constructed = [SPACE.NULLSPACE] ↔
        o.space = "null")) ∧
    (∀ {V Ch σ S D : Type} [Zero D] [Add D] (progname : String)
        (cmd : List (Char × Option String)) (env : Env V Ch σ S D) (o : Options) (x y : V),
      parseOptions cmd defaultOptions = some o → (∀ occ ∈ cmd, occ.1 ≠ 's') →
      env.parseProblem o.problem o.artificalSleep o.links = some (x, y) →
      (main progname cmd env).events.filterMap Event.constructed = [SPACE.PROJECTED]) := by
  have hinvalid : ∀ {V Ch σ S D : Type} [Zero D] [Add D] (progname : String)
      (cmd : List (Char × Option String)) (env : Env V Ch σ S D) (o : Options),
      parseOptions cmd defaultOptions = some o → selectSpace o.space = none →
      main progname cmd env =
        { events := [Event.cout "Invalid constrained state space.\n"] ++ usage progname,
          termination := Termination.exited } := by
    intro V Ch σ S D _ _ progname cmd env o hparse hsel
    unfold main
    simp only [hparse, hsel]
  have hdefault : ∀ (cmd : List (Char × Option String)) (o : Options),
      parseOptions cmd defaultOptions = some o → (∀ occ ∈ cmd, occ.1 ≠ 's') →
      o.space = "projected" ∧ selectSpace o.space = some SPACE.PROJECTED := by
    intro cmd o hparse hs
    have h := parseOptions_space cmd defaultOptions o hs hparse
    have h2 : o.space = "projected" := h
    exact ⟨h2, by rw [h2]; decide⟩
  refine ⟨selectSpace_atlas, selectSpace_projected, selectSpace_null, ?_, hdefault, ?_, ?_⟩
  · intro V Ch σ S D _ _ progname cmd env o hparse h1 h2 h3
    have hsel : selectSpace o.space = none := (selectSpace_none _).mpr ⟨h1, h2, h3⟩
    rw [hinvalid progname cmd env o hparse hsel]
    refine ⟨rfl, ?_, ?_⟩
    · intro t h; simp [usage] at h
    · intro d h; simp [usage] at h
  · intro V Ch σ S D _ _ progname cmd env o x y hparse hproblem
    cases hsel : selectSpace o.space with
    | none =>
      obtain ⟨h1, h2, h3⟩ := (selectSpace_none _).mp hsel
      rw [hinvalid progname cmd env o hparse hsel]
      dsimp only
      simp only [List.filterMap_append, constructed_usage]
      refine ⟨⟨fun h => ?_, fun h => absurd h h1⟩, ⟨fun h => ?_, fun h => absurd h h2⟩,
        ⟨fun h => ?_, fun h => absurd h h3⟩⟩
      · simp [Event.constructed] at h
      · simp [Event.constructed] at h
      · simp [Event.constructed] at h
    | some t =>
      rw [constructed_main_of_problem progname cmd env o t x y hparse hsel hproblem]
      rw [← selectSpace_atlas, ← selectSpace_projected, ← selectSpace_null, hsel]
      simp
  · intro V Ch σ S D _ _ progname cmd env o x y hparse hs hproblem
    exact constructed_main_of_problem progname cmd env o SPACE.PROJECTED x y hparse
      (hdefault cmd o hparse hs).2 hproblem

/-- Witness for C3: the space name `sphere` ends the run in `usage`; a command
line without `-s` selects the projected space and the run constructs it; the
run `-s atlas` constructs the atlas and the run `-s null` the null space. -/
theorem C3_space_selection_witness :
    (main "demo" [('s', some "sphere")] (lineEnv 0 [0, 4] exactSolution)
      = { events := [Event.cout "Invalid constrained state space.\n"] ++ usage "demo",
          termination := Termination.exited }) ∧
    selectSpace ({ defaultOptions with plannerName := "PRM" }).space = some SPACE.PROJECTED ∧
    (main "demo" [('s', some "atlas")] (lineEnv 0 [0, 4] exactSolution)).events.filterMap
      Event.constructed = [SPACE.ATLAS] ∧
    (main "demo" [('s', some "null")] (lineEnv 0 [0, 4] exactSolution)).events.filterMap
      Event.constructed = [SPACE.NULLSPACE] ∧
    (main "demo" [('o', none)] (lineEnv 0 [0, 4] exactSolution)).events.filterMap
      Event.constructed = [SPACE.PROJECTED] :=
  ⟨(C3_space_selection.2.2.2.1 "demo" [('s', some "sphere")]
      (lineEnv 0 [0, 4] exactSolution) { defaultOptions with space := "sphere" }
      rfl (by decide) (by decide) (by decide)).1,
   (C3_space_selection.2.2.2.2.1 [('p', some "PRM")] { defaultOptions with plannerName := "PRM" }
      rfl (by decide)).2,
   (C3_space_selection.2.2.2.2.2.1 "demo" [('s', some "atlas")]
      (lineEnv 0 [0, 4] exactSolution) atlasOptions [1, 0, 0] [0, 1, 0] rfl rfl).1.mpr rfl,
   (C3_space_selection.2.2.2.2.2.1 "demo" [('s', some "null")]
      (lineEnv 0 [0, 4] exactSolution) { defaultOptions with space := "null" }
      [1, 0, 0] [0, 1, 0] rfl rfl).2.2.mpr rfl,
   C3_space_selection.2.2.2.2.2.2 "demo" [('o', none)]
      (lineEnv 0 [0, 4] exactSolution) { defaultOptions with output := true }
      [1, 0, 0] [0, 1, 0] rfl (by decide) rfl⟩

/-- C4: in every run of `main` that gets to configure a state space (options,
space name and problem accepted), whatever the command line and the
environment, the parameter settings made on the space are exactly: for the
projected and the null space `setDelta(0.02)`; for the atlas
`setExploration(0.5)`, `setRho(0.5)`, `setAlpha(M_PI / 8)`, `setEpsilon(0.2)`,
`setDelta(0.02)` and `setMaxChartsPerExtension(200)`. -/
theorem C4_space_parameters {V Ch σ S D : Type} [Zero D] [Add D]
    (progname : String) (cmd : List (Char × Option String))
    (env : Env V Ch σ S D) (o : Options) (t : SPACE) (x y : V)
    (h1 : parseOptions cmd defaultOptions = some o) (h2 : selectSpace o.space = some t)
    (h3 : env.parseProblem o.problem o.artificalSleep o.links = some (x, y)) :
    Event.setDelta (Dbl.dec 2 2) ∈ (main progname cmd env).events ∧
    (main progname cmd env).events.filter Event.isSetting =
      (if t = SPACE.ATLAS then
        [Event.setExploration (Dbl.dec 5 1), Event.setRho (Dbl.dec 5 1),
         Event.setAlpha (Dbl.piOver 8), Event.setEpsilon (Dbl.dec 2 1),
         Event.setDelta (Dbl.dec 2 2), Event.setMaxChartsPerExtension 200]
       else [Event.setDelta (Dbl.dec 2 2)]) := by
  obtain ⟨rest, hev, hrest, _, _⟩ := main_events_of_problem progname cmd env o t x y h1 h2 h3
  rw [hev]
  constructor
  · cases t <;> simp [configureSpace]
  · simp only [List.filter_append, hrest, List.append_nil]
    cases t <;> rfl

/-- Witness for C4: the settings of the run `-s atlas -t 1`. -/
theorem C4_space_parameters_witness :
    (main "demo" [('s', some "atlas"), ('t', some "1")]
        (lineEnv 0 [0, 4] exactSolution)).events.filter Event.isSetting =
      [Event.setExploration (Dbl.dec 5 1), Event.setRho (Dbl.dec 5 1),
       Event.setAlpha (Dbl.piOver 8), Event.setEpsilon (Dbl.dec 2 1),
       Event.setDelta (Dbl.dec 2 2), Event.setMaxChartsPerExtension 200] :=
  (C4_space_parameters "demo" [('s', some "atlas"), ('t', some "1")]
    (lineEnv 0 [0, 4] exactSolution)
    { atlasOptions with planningTime := Dbl.atof "1" } SPACE.ATLAS [1, 0, 0] [0, 1, 0]
    rfl rfl rfl).2

/-- C5: in a run of `main` with the atlas selected and the problem accepted,
`anchorChart` is called exactly twice, first with the start point `x` and then
with the goal point `y` of the problem, and the start state is set to `x` with
the chart returned for `x` and the goal state to `y` with the chart returned
for `y`; in a run with the projected or the null space selected `anchorChart`
is never called. -/
theorem C5_anchor_charts {V Ch σ S D : Type} [Zero D] [Add D]
    (progname : String) (cmd : List (Char × Option String))
    (env : Env V Ch σ S D) (o : Options) (t : SPACE)
    (h1 : parseOptions cmd defaultOptions = some o) (h2 : selectSpace o.space = some t) :
    (t = SPACE.ATLAS → ∀ x y : V,
      env.parseProblem o.problem o.artificalSleep o.links = some (x, y) →
      (main progname cmd env).events.filterMap Event.anchored = [x, y] ∧
      (main progname cmd env).events.filterMap Event.realState =
        [(Endpoint.start, x, some (env.anchorChart [] x)),
         (Endpoint.goal, y, some (env.anchorChart [x] y))]) ∧
    (t ≠ SPACE.ATLAS → (main progname cmd env).events.filterMap Event.anchored = []) := by
  constructor
  · intro ht x y h3
    subst ht
    obtain ⟨rest, hev, _, hanch, hreal⟩ :=
      main_events_of_problem progname cmd env o SPACE.ATLAS x y h1 h2 h3
    rw [hev]
    simp only [List.filterMap_append, hanch, hreal, List.append_nil]
    exact ⟨rfl, rfl⟩
  · intro ht
    cases h3 : env.parseProblem o.problem o.artificalSleep o.links with
    | none =>
      have hmain : (main progname cmd env).events =
          [Event.parseProblem o.problem o.artificalSleep o.links,
           Event.cout "Invalid problem.\n"] ++ usage progname := by
        unfold main
        simp only [h1, h2, h3]
      rw [hmain]; rfl
    | some p =>
      obtain ⟨x, y⟩ := p
      obtain ⟨rest, hev, _, hanch, _⟩ :=
        main_events_of_problem progname cmd env o t x y h1 h2 h3
      rw [hev]
      simp only [List.filterMap_append, hanch, List.append_nil]
      cases t
      · exact absurd rfl ht
      · rfl
      · rfl

/-- Witness for C5: the anchored points and the start and goal states of the
run `-s atlas`, and no anchored point in the run `-s null`. -/
theorem C5_anchor_charts_witness :
    (main "demo" [('s', some "atlas")]
        (lineEnv 0 [0, 4] exactSolution)).events.filterMap Event.anchored =
      [[1, 0, 0], [0, 1, 0]] ∧
    (main "demo" [('s', some "atlas")]
        (lineEnv 0 [0, 4] exactSolution)).events.filterMap Event.realState =
      [(Endpoint.start, [1, 0, 0], some 0), (Endpoint.goal, [0, 1, 0], some 1)] ∧
    (main "demo" [('s', some "null")]
        (lineEnv 0 [0, 4] exactSolution)).events.filterMap Event.anchored = [] :=
  ⟨((C5_anchor_charts "demo" [('s', some "atlas")]
      (lineEnv 0 [0, 4] exactSolution) atlasOptions SPACE.ATLAS rfl rfl).1 rfl
      [1, 0, 0] [0, 1, 0] rfl).1,
   ((C5_anchor_charts "demo" [('s', some "atlas")]
      (lineEnv 0 [0, 4] exactSolution) atlasOptions SPACE.ATLAS rfl rfl).1 rfl
      [1, 0, 0] [0, 1, 0] rfl).2,
   (C5_anchor_charts "demo" [('s', some "null")]
      (lineEnv 0 [0, 4] exactSolution) { defaultOptions with space := "null" }
      SPACE.NULLSPACE rfl rfl).2 (by decide)⟩

/-- C6 (amended): in a run of `main` the chart count is reported only if the
selected space is the atlas, and so is the frontier percentage: for the
projected and the null space neither statistic is ever reported. In every run
in which the problem and the planner are accepted and, when the planner found a
solution, the path extraction is defined (a solution path that is not empty and
fits `std::size_t`, non-empty traversal results), `main` returns and reports the
chart count iff the selected space is the atlas, and the frontier percentage
iff it is the atlas, whether the planner found a solution or not. -/
theorem C6_atlas_statistics {V Ch σ S D : Type} [Zero D] [Add D]
    (progname : String) (cmd : List (Char × Option String))
    (env : Env V Ch σ S D) (o : Options) (t : SPACE)
    (h1 : parseOptions cmd defaultOptions = some o) (h2 : selectSpace o.space = some t) :
    (Event.coutChartCount ∈ (main progname cmd env).events → t = SPACE.ATLAS) ∧
    (Event.coutFrontierPercent ∈ (main progname cmd env).events → t = SPACE.ATLAS) ∧
    (∀ x y : V, env.parseProblem o.problem o.artificalSleep o.links = some (x, y) →
      env.parsePlanner o.plannerName (rangeOf t) = true →
      ((env.solve o.planningTime).toBool = true →
        env.waypoints ≠ [] ∧ env.waypoints.length < 2 ^ SIZE_WIDTH ∧
        ∀ r ∈ traversals env.css env.cssState env.waypoints, r.2 ≠ []) →
      (main progname cmd env).termination = Termination.returned ∧
      (Event.coutChartCount ∈ (main progname cmd env).events ↔ t = SPACE.ATLAS) ∧
      (Event.coutFrontierPercent ∈ (main progname cmd env).events ↔ t = SPACE.ATLAS)) := by
  have hu : Event.coutChartCount ∉ (usage progname : List (Event V Ch S D)) ∧
      Event.coutFrontierPercent ∉ (usage progname : List (Event V Ch S D)) :=
    chartCount_usage progname
  have honly : (Event.coutChartCount ∈ (main progname cmd env).events → t = SPACE.ATLAS) ∧
      (Event.coutFrontierPercent ∈ (main progname cmd env).events → t = SPACE.ATLAS) := by
    cases h3 : env.parseProblem o.problem o.artificalSleep o.links with
    | none =>
      rw [main_of_invalid_problem progname cmd env o t h1 h2 h3]
      dsimp only
      simp only [List.mem_append]
      refine ⟨?_, ?_⟩
      · rintro (h | h)
        · simp at h
        · exact absurd h hu.1
      · rintro (h | h)
        · simp at h
        · exact absurd h hu.2
    | some p =>
      obtain ⟨x, y⟩ := p
      have hc := chartCount_configureSpace env t x y
      cases h4 : env.parsePlanner o.plannerName (rangeOf t) with
      | false =>
        rw [main_of_invalid_planner progname cmd env o t x y h1 h2 h3 h4]
        dsimp only
        simp only [List.mem_append]
        refine ⟨?_, ?_⟩
        · rintro (((((h | h) | h) | h)) | h)
          · simp at h
          · exact absurd h hc.1
          · simp at h
          · simp at h
          · exact absurd h hu.1
        · rintro (((((h | h) | h) | h)) | h)
          · simp at h
          · exact absurd h hc.2
          · simp at h
          · simp at h
          · exact absurd h hu.2
      | true =>
        rw [main_of_passed progname cmd env o t x y h1 h2 h3 h4]
        dsimp only
        have hso := chartCount_solved_only env o t x (env.solve o.planningTime)
        simp only [List.mem_append]
        refine ⟨?_, ?_⟩
        · rintro (((((h | h) | h) | h)) | h)
          · simp at h
          · exact absurd h hc.1
          · simp at h
          · simp at h
          · exact hso.1 h
        · rintro (((((h | h) | h) | h)) | h)
          · simp at h
          · exact absurd h hc.2
          · simp at h
          · simp at h
          · exact hso.2 h
  refine ⟨honly.1, honly.2, ?_⟩
  intro x y h3 h4 hpath
  have hret := solved_returns env o t x (env.solve o.planningTime) hpath
  have hs := chartCount_solved env o t x (env.solve o.planningTime) hret
  have hmain := main_of_passed progname cmd env o t x y h1 h2 h3 h4
  refine ⟨?_, ⟨honly.1, ?_⟩, ⟨honly.2, ?_⟩⟩
  · rw [hmain]; exact hret
  · intro ht
    rw [hmain]
    dsimp only
    exact List.mem_append_right _ (hs.1.mpr ht)
  · intro ht
    rw [hmain]
    dsimp only
    exact List.mem_append_right _ (hs.2.mpr ht)

/-- Witness for C6 (amended): the atlas statistics are reported with and without
a solution, and not reported for the projected space. -/
theorem C6_atlas_statistics_witness :
    Event.coutChartCount ∈ (main "demo" [('s', some "atlas")]
        (lineEnv 0 [0, 4] exactSolution)).events ∧
    Event.coutFrontierPercent ∈ (main "demo" [('s', some "atlas")]
        (lineEnv 0 [0, 4] noSolution)).events ∧
    Event.coutChartCount ∉ (main "demo" []
        (lineEnv 0 [0, 4] noSolution)).events :=
  ⟨((C6_atlas_statistics "demo" [('s', some "atlas")]
      (lineEnv 0 [0, 4] exactSolution) atlasOptions SPACE.ATLAS rfl rfl).2.2
      [1, 0, 0] [0, 1, 0] rfl rfl
      (fun _ => ⟨by decide, by decide, by decide⟩)).2.1.mpr rfl,
   ((C6_atlas_statistics "demo" [('s', some "atlas")]
      (lineEnv 0 [0, 4] noSolution) atlasOptions SPACE.ATLAS rfl rfl).2.2
      [1, 0, 0] [0, 1, 0] rfl rfl
      (fun h => absurd h (by decide))).2.2.mpr rfl,
   fun h => absurd ((C6_atlas_statistics "demo" []
      (lineEnv 0 [0, 4] noSolution) defaultOptions SPACE.PROJECTED rfl rfl).1 h)
      (by decide)⟩

/-- C6 as stated fails: in the run `-s atlas -p nosuch` the atlas is selected
and constructed, but the planner name is not accepted, `main` reports an
invalid planner and exits through `usage`, and neither the chart count nor the
frontier percentage is reported. -/
theorem C6_counterexample :
    selectSpace "atlas" = some SPACE.ATLAS ∧
    (main "demo" [('s', some "atlas"), ('p', some "nosuch")]
      (lineEnv 0 [0, 4] exactSolution)).events.filterMap Event.constructed = [SPACE.ATLAS] ∧
    Event.cout "Invalid planner.\n" ∈
      (main "demo" [('s', some "atlas"), ('p', some "nosuch")]
        (lineEnv 0 [0, 4] exactSolution)).events ∧
    (main "demo" [('s', some "atlas"), ('p', some "nosuch")]
      (lineEnv 0 [0, 4] exactSolution)).termination = Termination.exited ∧
    Event.coutChartCount ∉
      (main "demo" [('s', some "atlas"), ('p', some "nosuch")]
        (lineEnv 0 [0, 4] exactSolution)).events ∧
    Event.coutFrontierPercent ∉
      (main "demo" [('s', some "atlas"), ('p', some "nosuch")]
        (lineEnv 0 [0, 4] exactSolution)).events := by
  decide

/-- C7 (amended): an option occurrence is accepted by the option loop of `main`
(does not lead to `usage`) iff its letter is `o`, or one of `c`, `p`, `s`, `w`,
`t`, `n` followed by its argument; the loop completes iff every occurrence is
accepted; and a command line with an option letter other than `c`, `p`, `s`,
`w`, `t`, `n`, `o` makes the whole run of `main` the call of `usage`, which
prints the message and exits. -/
theorem C7_accepted_options :
    (∀ (letter : Char) (arg : Option String),
      accepted (letter, arg) = true ↔
        letter = 'o' ∨ (letter ∈ ['c', 'p', 's', 'w', 't', 'n'] ∧ arg ≠ none)) ∧
    (∀ cmd : List (Char × Option String),
      (parseOptions cmd defaultOptions).isSome = true ↔ ∀ occ ∈ cmd, accepted occ = true) ∧
    (∀ {V Ch σ S D : Type} [Zero D] [Add D] (progname : String)
        (cmd : List (Char × Option String)) (env : Env V Ch σ S D)
        (letter : Char) (arg : Option String),
      (letter, arg) ∈ cmd → letter ∉ ['c', 'p', 's', 'w', 't', 'n', 'o'] →
      main progname cmd env =
        { events := usage progname, termination := Termination.exited }) := by
  refine ⟨accepted_iff, fun cmd => parseOptions_accepted cmd defaultOptions, ?_⟩
  intro V Ch σ S D _ _ progname cmd env letter arg hmem hletter
  have hacc : ¬ accepted (letter, arg) = true := by
    intro hacc
    rw [accepted_iff] at hacc
    simp only [List.mem_cons, List.mem_singleton, List.not_mem_nil, or_false, not_or] at hletter
    obtain ⟨hc, hp, hs, hw, ht, hn, ho⟩ := hletter
    simp [hc, hp, hs, hw, ht, hn, ho] at hacc
  have hparse : parseOptions cmd defaultOptions = none := by
    cases h : parseOptions cmd defaultOptions with
    | none => rfl
    | some o =>
      have h2 := (parseOptions_accepted cmd defaultOptions).mp (by rw [h]; rfl)
      exact absurd (h2 _ hmem) hacc
  unfold main
  simp only [hparse]

/-- Witness for C7 (amended): the command line `-t 2.5 -x` ends in `usage`. -/
theorem C7_accepted_options_witness :
    main "demo" [('t', some "2.5"), ('x', none)] (lineEnv 0 [0, 4] exactSolution) =
      { events := usage "demo", termination := Termination.exited } :=
  C7_accepted_options.2.2 "demo" [('t', some "2.5"), ('x', none)]
    (lineEnv 0 [0, 4] exactSolution) 'x' none (by decide) (by decide)

/-- C7 as stated fails: the usage message lists the letters `c`, `p`, `s`, `t`,
`w`, `o` only, but the option loop also accepts `-n` with an argument, and the
run goes on to planning without calling `usage`. -/
theorem C7_counterexample :
    listedOptions usageText.toList = ['c', 'p', 's', 't', 'w', 'o'] ∧
    accepted ('n', some "7") = true ∧
    (main "demo" [('n', some "7")]
      (lineEnv 0 [0, 4] exactSolution)).termination = Termination.returned ∧
    Event.exit 0 ∉
      (main "demo" [('n', some "7")] (lineEnv 0 [0, 4] exactSolution)).events ∧
    Event.solve (Dbl.dec 50 1) ∈
      (main "demo" [('n', some "7")] (lineEnv 0 [0, 4] exactSolution)).events := by
  decide

/-- C9: for a waypoint list whose size fits `std::size_t`, the waypoint loop of
`main` reads only indexes inside the list iff the list is not empty. For a list
of n >= 1 waypoints the bound is n - 1 and, the traversals returning non-empty
sequences, the loop completes exactly n - 1 iterations, reading the indexes i
and i + 1 for i = 0 .. n - 2 in order. For the empty list the bound
`waypoints.size() - 1` wraps to 2^64 - 1 and the first iteration reads index 0
of the empty list. -/
theorem C9_waypoint_indexes {σ S D : Type} [Add D] [Zero D]
    (sp : ConstrainedStateSpace σ S D) (s0 : σ) (waypoints : List S)
    (hsize : waypoints.length < 2 ^ SIZE_WIDTH) :
    ((∀ k ∈ (extractPath sp s0 waypoints).reads, k < waypoints.length) ↔ waypoints ≠ []) ∧
    (waypoints ≠ [] → loopBound waypoints.length = waypoints.length - 1) ∧
    (waypoints ≠ [] → (∀ r ∈ traversals sp s0 waypoints, r.2 ≠ []) →
      (extractPath sp s0 waypoints).iterations = waypoints.length - 1 ∧
      (extractPath sp s0 waypoints).reads =
        (List.range (waypoints.length - 1)).flatMap (fun i => [i, i + 1]) ∧
      (extractPath sp s0 waypoints).fault = none) ∧
    (waypoints = [] →
      loopBound waypoints.length = 2 ^ 64 - 1 ∧
      (extractPath sp s0 waypoints).reads = [0] ∧
      (extractPath sp s0 waypoints).iterations = 0 ∧
      (extractPath sp s0 waypoints).fault = some (Fault.waypointIndex 0)) := by
  refine ⟨⟨?_, ?_⟩, ?_, ?_, ?_⟩
  · intro h hnil
    subst hnil
    rw [extractPath_nil] at h
    exact absurd (h 0 (List.mem_singleton.mpr rfl)) (by simp)
  · intro hne
    exact extractPath_reads_lt sp s0 waypoints hne hsize
  · intro hne
    cases waypoints with
    | nil => exact absurd rfl hne
    | cons a rest => exact loopBound_succ _ hsize
  · intro hne htrav
    have h := extractPath_run sp s0 waypoints hne hsize htrav
    exact ⟨h.2.2.2.1, h.2.2.1, h.2.2.2.2⟩
  · intro hnil
    subst hnil
    rw [extractPath_nil]
    exact ⟨loopBound_zero, rfl, rfl, rfl⟩

/-- Witness for C9: the path 0, 10, 10, 4 takes three iterations reading the
indexes 0, 1, 1, 2, 2, 3; the empty path reads index 0. -/
theorem C9_waypoint_indexes_witness :
    [0, 10, 10, 4].length < 2 ^ SIZE_WIDTH ∧
    (extractPath (lineSpace 0) 0 [0, 10, 10, 4]).iterations = 3 ∧
    (extractPath (lineSpace 0) 0 [0, 10, 10, 4]).reads = [0, 1, 1, 2, 2, 3] ∧
    (extractPath (lineSpace 0) 0 ([] : List Nat)).reads = [0] :=
  ⟨by decide,
   ((C9_waypoint_indexes (lineSpace 0) 0 [0, 10, 10, 4] (by decide)).2.2.1
      (by decide) (by decide)).1,
   ((C9_waypoint_indexes (lineSpace 0) 0 [0, 10, 10, 4] (by decide)).2.2.1
      (by decide) (by decide)).2.1,
   ((C9_waypoint_indexes (lineSpace 0) 0 ([] : List Nat) (by decide)).2.2.2 rfl).2.1⟩

/-- C10: in a run of `main` that reaches the path extraction with a solution
path of n >= 2 waypoints, when every traversal sequence S_i has w_i as its first
and w_(i+1) as its last state, and these two are not equal by `equalStates` (an
equality test that holds of a state and itself), `main` writes for each pair
exactly the states S_i[1..] in order: the states written are the concatenation
of the sequences without their position 0 (so the first waypoint w_0, at
position 0 of S_0, is not written from there), their number is the sum of
|S_i| - 1 over the n - 1 segments, and the last state written for segment i is
the waypoint w_(i+1). -/
theorem C10_open_segments {V Ch σ S D : Type} [Zero D] [Add D]
    (progname : String) (cmd : List (Char × Option String)) (env : Env V Ch σ S D)
    (o : Options) (t : SPACE) (x y : V)
    (hrun : SolvedRun cmd env o t x y)
    (hn : 2 ≤ env.waypoints.length)
    (hsize : env.waypoints.length < 2 ^ SIZE_WIDTH)
    (hrefl : ∀ s c, env.css.equalStates s c c = true)
    (hseg : ∀ (i : Nat) (r : σ × List S) (a b : S),
      (traversals env.css env.cssState env.waypoints)[i]? = some r →
      env.waypoints[i]? = some a → env.waypoints[i + 1]? = some b →
      r.2.head? = some a ∧ r.2.getLast? = some b ∧ env.css.equalStates r.1 a b = false) :
    (main progname cmd env).animFiles =
      [(traversals env.css env.cssState env.waypoints).flatMap (fun r => r.2.drop 1)] ∧
    ((traversals env.css env.cssState env.waypoints).flatMap (fun r => r.2.drop 1)).length =
      ((traversals env.css env.cssState env.waypoints).map (fun r => r.2.length - 1)).sum ∧
    (traversals env.css env.cssState env.waypoints).length = env.waypoints.length - 1 ∧
    (∀ (i : Nat) (r : σ × List S) (b : S),
      (traversals env.css env.cssState env.waypoints)[i]? = some r →
      env.waypoints[i + 1]? = some b → (r.2.drop 1).getLast? = some b) := by
  have hne : env.waypoints ≠ [] := by
    intro h; rw [h] at hn; simp at hn
  have hopen : ∀ r ∈ traversals env.css env.cssState env.waypoints,
      r.2 ≠ [] ∧ closedSegment env.css r = false := by
    intro r hr
    obtain ⟨i, a, b, hi, ha, hb⟩ := mem_traversals_endpoints env.css env.cssState env.waypoints r hr
    obtain ⟨h1, h2, h3⟩ := hseg i r a b hi ha hb
    refine ⟨?_, open_of_endpoints env.css r a b h1 h2 h3⟩
    intro hnil; rw [hnil] at h1; simp at h1
  have hx := extractPath_run env.css env.cssState env.waypoints hne hsize
    (fun r hr => (hopen r hr).1)
  have hm := main_solved_observations progname cmd env o t x y hrun hx.2.2.2.2
  refine ⟨?_, ?_, traversals_length _ _ _, ?_⟩
  · rw [hm.2.1, hx.1]
    congr 1
    apply List.flatMap_congr
    intro r hr
    simp [segmentStates, (hopen r hr).2]
  · rw [List.length_flatMap]
    congr 1
    apply List.map_congr_left
    intro r _
    simp
  · intro i r b hi hb
    obtain ⟨hlt, _⟩ := List.getElem?_eq_some.mp hi
    rw [traversals_length] at hlt
    have h1 : i < env.waypoints.length := by omega
    obtain ⟨hh, hl, hq⟩ := hseg i r env.waypoints[i] b hi (List.getElem?_eq_getElem h1) hb
    exact tail_getLast_of_endpoints env.css r _ b hrefl hh hl hq

/-- Witness for C10: the path 0, 10, 4 writes the states 5, 10, 7, 4. -/
theorem C10_open_segments_witness :
    (main "demo" [] (lineEnv 0 [0, 10, 4] exactSolution)).animFiles =
      [[5, 10, 7, 4]] := by
  have hT : traversals (lineEnv 0 [0, 10, 4] exactSolution).css
      (lineEnv 0 [0, 10, 4] exactSolution).cssState
      (lineEnv 0 [0, 10, 4] exactSolution).waypoints =
      [(1, [0, 5, 10]), (2, [10, 7, 4])] := by decide
  have hw : (lineEnv 0 [0, 10, 4] exactSolution).waypoints = [0, 10, 4] := rfl
  have h := (C10_open_segments "demo" [] (lineEnv 0 [0, 10, 4] exactSolution)
    defaultOptions SPACE.PROJECTED [1, 0, 0] [0, 1, 0] ⟨rfl, rfl, rfl, rfl, rfl⟩
    (by decide) (by decide)
    (fun s c => by simp [lineEnv, lineSpace])
    (by
      intro i r a b hi ha hb
      rw [hT] at hi
      rw [hw] at ha hb
      match i with
      | 0 =>
        simp only [List.getElem?_cons_zero, List.getElem?_cons_succ, Option.some.injEq] at hi ha hb
        subst hi; subst ha; subst hb
        decide
      | 1 =>
        simp only [List.getElem?_cons_zero, List.getElem?_cons_succ, Option.some.injEq] at hi ha hb
        subst hi; subst ha; subst hb
        decide
      | n + 2 => simp at hi)).1
  rw [h, hT]
  rfl

end ConstrainedPlanning
